import Mathlib

/-!
# Verification of the workflow execution engine of `myappstatus`

Shallow embedding of the workflow engine (`src/services/workflowEngine.js`),
the time-driven scheduler (`src/services/schedulerService.js`), the
StepInstance / ProcessInstance mongoose models and the template validation
helpers, together with proofs settling the frozen claims about them.

Modelling conventions:
* MongoDB documents become Lean structures; document ids are `Nat` for
  process/step/template documents and `String` for users (template
  `assignees` are user-id strings and flow into `assignedTo`).
* Dates are `Int` (milliseconds); `new Date()` is the `now` field of the
  engine state.
* `Mixed` maps (`formData`, `variables`) are association lists
  `List (String × String)`; the JS object spread is `mergeMap`.
* Fallible operations return `Except JsError α` together with the updated
  state: a mongoose `save` is modelled as committed at the moment of the
  call, so a later thrown error leaves earlier writes in place, exactly like
  the database.  The notification sink (`Notification.create` /
  `notificationService.createNotification`) is the one fallible side-effect
  sink; a `notificationSinkFails` flag in the state makes it fail, so the
  catch/rethrow structure of the engine is observable.  History writes are
  modelled reliable.
-/

set_option linter.unusedVariables false

namespace Myappstatus

/-- One `nextSteps` entry of a template step: `{condition, stepId}`.  A missing
condition is the empty string (JS falsy). -/
structure NextStepDef where
  condition : String
  stepId : String
  deriving Repr, DecidableEq

/-- A step definition inside a process template (`processTemplateSchema.steps`).
`type` and `assigneeType` are the schema enum strings.  `timeLimit` is in hours. -/
structure StepDefinition where
  stepId : String
  name : String
  type : String
  assigneeType : String
  assignees : List String
  nextSteps : List NextStepDef
  timeLimit : Option Int
  autoComplete : Bool
  deriving Repr, DecidableEq

/-- A process template: `steps`, `startStep`, `endSteps` (the parts the engine
reads). -/
structure ProcessTemplate where
  id : Nat
  steps : List StepDefinition
  startStep : String
  endSteps : List String
  deriving Repr, DecidableEq

/-- A process instance document (the fields the engine reads and writes). -/
structure ProcessInstance where
  id : Nat
  processTemplateId : Nat
  name : String
  status : String
  currentSteps : List String
  startDate : Option Int
  endDate : Option Int
  completionPercentage : Nat
  initiatedBy : String
  deriving Repr, DecidableEq

/-- One entry of `stepInstanceSchema.escalationHistory`. -/
structure EscalationEntry where
  level : Nat
  escalatedTo : String
  escalatedAt : Int
  reason : String
  deriving Repr, DecidableEq

/-- A step instance document (`stepInstanceSchema`). -/
structure StepInstance where
  id : Nat
  processInstanceId : Nat
  stepId : String
  name : String
  type : String
  status : String
  assignedTo : Option String
  assignedRole : Option String
  assignedDepartment : Option String
  startDate : Option Int
  endDate : Option Int
  dueDate : Option Int
  formData : List (String × String)
  escalated : Bool
  escalationLevel : Nat
  escalationHistory : List EscalationEntry
  completedBy : Option String
  /-- the schema's `variables` map (`variables` is reserved in Lean) -/
  vars : List (String × String)
  deriving Repr, DecidableEq

/-- A user (the fields the escalation queries read). -/
structure User where
  id : String
  role : String
  isActive : Bool
  deriving Repr, DecidableEq

/-- A `ProcessHistory` audit record (metadata/timestamp omitted: no claim reads
them). -/
structure HistoryEntry where
  processInstanceId : Nat
  stepInstanceId : Option Nat
  action : String
  performedBy : Option String
  fromStatus : Option String
  toStatus : Option String
  deriving Repr, DecidableEq

/-- A notification document (title/message texts omitted: no claim reads them). -/
structure NotificationDoc where
  userId : String
  ntype : String
  relatedProcess : Option Nat
  relatedStep : Option Nat
  priority : String
  deriving Repr, DecidableEq

/-- Errors a JS call can surface: `AppError(statusCode, message)` from
`utils/helpers.js`, a raw `TypeError` from dereferencing `null`/`undefined`,
and a failure of the notification sink. -/
inductive JsError where
  | appError (status : Nat) (msg : String)
  | typeError (msg : String)
  | sinkError
  deriving Repr, DecidableEq

/-- The world the engine and scheduler act on: the document collections, the
clock, the id counter for new step instances, and whether the notification
sink is currently failing. -/
structure EngineState where
  templates : List ProcessTemplate
  instances : List ProcessInstance
  stepInstances : List StepInstance
  users : List User
  history : List HistoryEntry
  notifications : List NotificationDoc
  now : Int
  nextStepInstanceId : Nat
  notificationSinkFails : Bool
  deriving Repr, DecidableEq

/-! ## Map and collection helpers -/

/-- JS object spread `{...old, ...new}`: keys of `new` override keys of `old`,
new keys are appended. -/
def mergeMap (old new : List (String × String)) : List (String × String) :=
  old.filter (fun p => !(new.any (fun q => q.1 == p.1))) ++ new

/-- Lookup of a key in a `Mixed` map (`obj?.key`). -/
def lookupVar (m : List (String × String)) (k : String) : Option String :=
  (m.find? (fun p => p.1 == k)).map (fun p => p.2)

/-- `Model.findById` on a keyed collection. -/
def entryBy {α : Type} (key : α → Nat) (l : List α) (i : Nat) : Option α :=
  l.find? (fun a => key a == i)

/-- A mongoose `save()` of a fetched document: replace the entry with the same
id.  (Documents that are `new`-constructed are appended by the insert helpers
instead.) -/
def replaceBy {α : Type} (key : α → Nat) (l : List α) (a : α) : List α :=
  l.map (fun q => if key q == key a then a else q)

def findTemplate (s : EngineState) (i : Nat) : Option ProcessTemplate :=
  entryBy (fun t => t.id) s.templates i

def findInstance (s : EngineState) (i : Nat) : Option ProcessInstance :=
  entryBy (fun p => p.id) s.instances i

def findStepInstance (s : EngineState) (i : Nat) : Option StepInstance :=
  entryBy (fun t => t.id) s.stepInstances i

def saveInstance (s : EngineState) (p : ProcessInstance) : EngineState :=
  { s with instances := replaceBy (fun q => q.id) s.instances p }

def saveStepInstance (s : EngineState) (t : StepInstance) : EngineState :=
  { s with stepInstances := replaceBy (fun q => q.id) s.stepInstances t }

/-- Saving a `new StepInstance(...)` document: insert and advance the id
counter. -/
def insertStepInstance (s : EngineState) (t : StepInstance) : EngineState :=
  { s with stepInstances := s.stepInstances ++ [t],
           nextStepInstanceId := s.nextStepInstanceId + 1 }

/-- `ProcessHistory.create` (modelled reliable). -/
def appendHistory (s : EngineState) (h : HistoryEntry) : EngineState :=
  { s with history := s.history ++ [h] }

/-- `Notification.create` / `notificationService.createNotification`: appends
the document, or throws when the sink is failing. -/
def notifyUser (s : EngineState) (n : NotificationDoc) :
    Except JsError Unit × EngineState :=
  if s.notificationSinkFails then (.error .sinkError, s)
  else (.ok (), { s with notifications := s.notifications ++ [n] })

/-! ## Routing resolver (`determineNextSteps` / `evaluateCondition`) -/

/-- JS truthiness of the optional `decision` string (`null`/`undefined`/`""`
are falsy). -/
def decisionTruthy (d : Option String) : Bool :=
  match d with
  | some v => v != ""
  | none => false

/-- `evaluateCondition(condition, stepInstance, decision)` of
`workflowEngine.js` (the `stepInstance` argument is unused by the source and
dropped here): `""`/`"true"` always hold; otherwise only a literal match with
a truthy decision holds. -/
def evaluateCondition (condition : String) (decision : Option String) : Bool :=
  if condition == "true" || condition == "" then true
  else
    match decision with
    | some d => if d != "" && condition == d then true else false
    | none => false

/-- `determineNextSteps(templateStep, stepInstance, decision)` of
`workflowEngine.js`: collect entries whose condition is falsy or evaluates
true; if none and the step is a decision step with a truthy decision, take the
entry whose condition equals the decision; if still none, fall back to the
first entry. -/
def determineNextSteps (templateStep : StepDefinition) (stepInstance : StepInstance)
    (decision : Option String) : List String :=
  if templateStep.nextSteps.isEmpty then []
  else
    let collected := (templateStep.nextSteps.filter (fun ns =>
        ns.condition == "" || evaluateCondition ns.condition decision)).map
        (fun ns => ns.stepId)
    let withDecision :=
      if collected.isEmpty && templateStep.type == "decision" && decisionTruthy decision then
        match decision with
        | some d =>
          match templateStep.nextSteps.find? (fun ns => ns.condition == d) with
          | some ds => [ds.stepId]
          | none => collected
        | none => collected
      else collected
    if withDecision.isEmpty && decide (0 < templateStep.nextSteps.length) then
      match templateStep.nextSteps with
      | [] => withDecision
      | first :: _ => [first.stepId]
    else withDecision

/-- First-entry fallback of the routing spec (stage 3 of the claim). -/
def firstFallback (templateStep : StepDefinition) : List String :=
  match templateStep.nextSteps with
  | [] => []
  | first :: _ => [first.stepId]

/-- Modelled from the spec wording of the routing algorithm (the four-stage
precedence of §4.1), to be compared with `determineNextSteps` as translated
from the source. -/
def routeSpec (templateStep : StepDefinition) (decision : Option String) : List String :=
  let satisfied := (templateStep.nextSteps.filter (fun ns =>
      ns.condition == "" || evaluateCondition ns.condition decision)).map
      (fun ns => ns.stepId)
  if !satisfied.isEmpty then satisfied
  else if templateStep.type == "decision" && decisionTruthy decision then
    match decision with
    | some d =>
      match templateStep.nextSteps.find? (fun ns => ns.condition == d) with
      | some e => [e.stepId]
      | none => firstFallback templateStep
    | none => firstFallback templateStep
  else firstFallback templateStep

/-- The variant of `determineNextSteps` with the decision-literal search branch
(lines 180–186 of `workflowEngine.js`) removed; the refinement claim compares
the source function against it. -/
def determineNextStepsNoDecision (templateStep : StepDefinition)
    (stepInstance : StepInstance) (decision : Option String) : List String :=
  if templateStep.nextSteps.isEmpty then []
  else
    let collected := (templateStep.nextSteps.filter (fun ns =>
        ns.condition == "" || evaluateCondition ns.condition decision)).map
        (fun ns => ns.stepId)
    if collected.isEmpty && decide (0 < templateStep.nextSteps.length) then
      match templateStep.nextSteps with
      | [] => collected
      | first :: _ => [first.stepId]
    else collected

/-! ## Workflow engine operations -/

/-- `stepInstanceSchema.methods.canComplete(userId)`: the step must be
`in_progress` and either unassigned or assigned to the caller. -/
def canComplete (si : StepInstance) (userId : String) : Bool :=
  if si.status != "in_progress" then false
  else
    match si.assignedTo with
    | some a => a == userId
    | none => true

/-- `sendTaskNotification(stepInstance)`: the notification write is wrapped in
`try/catch` that only logs, so a sink failure leaves the state unchanged and
never surfaces. -/
def sendTaskNotification (s : EngineState) (si : StepInstance) : EngineState :=
  match si.assignedTo with
  | some uid =>
    (notifyUser s { userId := uid, ntype := "task_assigned",
                    relatedProcess := some si.processInstanceId,
                    relatedStep := some si.id, priority := "medium" }).2
  | none => s

/-- The `new StepInstance({...})` document of `createStepInstance`: base
fields, assignment resolution by `assigneeType`, due date from `timeLimit`,
and the inline auto-completion of `service_task`/`autoComplete` steps. -/
def buildStepInstance (s : EngineState) (processInstance : ProcessInstance)
    (templateStep : StepDefinition) (userId : String) : StepInstance :=
  let si : StepInstance :=
    { id := s.nextStepInstanceId
      processInstanceId := processInstance.id
      stepId := templateStep.stepId
      name := templateStep.name
      type := templateStep.type
      status := "pending"
      assignedTo := none, assignedRole := none, assignedDepartment := none
      startDate := none, endDate := none, dueDate := none
      formData := []
      escalated := false, escalationLevel := 0, escalationHistory := []
      completedBy := none, vars := [] }
  let si :=
    if templateStep.assigneeType == "user" && !templateStep.assignees.isEmpty then
      { si with assignedTo := templateStep.assignees.head? }
    else if templateStep.assigneeType == "role" then
      { si with assignedRole := templateStep.assignees.head? }
    else if templateStep.assigneeType == "department" then
      { si with assignedDepartment := templateStep.assignees.head? }
    else si
  let si :=
    match templateStep.timeLimit with
    | some h => { si with dueDate := some (s.now + h * 3600000) }
    | none => si
  if templateStep.type == "service_task" || templateStep.autoComplete then
    { si with status := "completed", startDate := some s.now,
              endDate := some s.now, completedBy := some userId }
  else si

/-- The `step_created` history row written by `createStepInstance`. -/
def stepCreatedDoc (processInstance : ProcessInstance) (si : StepInstance)
    (userId : String) : HistoryEntry :=
  { processInstanceId := processInstance.id, stepInstanceId := some si.id,
    action := "step_created", performedBy := some userId,
    fromStatus := none, toStatus := some si.status }

/-- `createStepInstance(processInstance, templateStep, userId)`: builds the
document, saves it, appends a `step_created` history row, and (for assigned
user tasks) sends a task notification whose failure is swallowed. -/
def createStepInstance (s : EngineState) (processInstance : ProcessInstance)
    (templateStep : StepDefinition) (userId : String) : StepInstance × EngineState :=
  let si := buildStepInstance s processInstance templateStep userId
  let s2 := appendHistory (insertStepInstance s si) (stepCreatedDoc processInstance si userId)
  (si, if templateStep.type == "user_task" && si.assignedTo.isSome then
         sendTaskNotification s2 si
       else s2)

/-- `completeProcess(processInstance, userId)`: marks the instance completed
(status, endDate, 100 %, empty `currentSteps`), saves it, appends a
`process_completed` history row, then writes the completion notification whose
failure is logged and **rethrown** by the surrounding catch. -/
def completeProcess (processInstance : ProcessInstance) (userId : String)
    (s : EngineState) : Except JsError Unit × EngineState :=
  let pi := { processInstance with
              status := "completed", endDate := some s.now,
              completionPercentage := 100, currentSteps := ([] : List String) }
  let s1 := saveInstance s pi
  let s2 := appendHistory s1
    { processInstanceId := processInstance.id, stepInstanceId := none,
      action := "process_completed", performedBy := some userId,
      fromStatus := some "active", toStatus := some "completed" }
  notifyUser s2 { userId := pi.initiatedBy, ntype := "process_completed",
                  relatedProcess := some pi.id, relatedStep := none,
                  priority := "medium" }

/-- `Math.round((completed / total) * 100)` with the `totalSteps > 0` guard of
`updateCompletionPercentage` (round half up on nonnegative values). -/
def roundPct (completed total : Nat) : Nat :=
  if total = 0 then 0 else (200 * completed + total) / (2 * total)

/-- Total step instances of a process (`countDocuments({processInstanceId})`). -/
def countSteps (s : EngineState) (pid : Nat) : Nat :=
  (s.stepInstances.filter (fun t => t.processInstanceId == pid)).length

/-- Completed step instances of a process. -/
def countCompleted (s : EngineState) (pid : Nat) : Nat :=
  (s.stepInstances.filter (fun t =>
    t.processInstanceId == pid && t.status == "completed")).length

/-- `processInstanceSchema.methods.updateCompletionPercentage()`: recompute the
percentage from the step-instance counts and save. -/
def updateCompletionPercentage (s : EngineState) (pi : ProcessInstance) :
    ProcessInstance × EngineState :=
  let pi' := { pi with
               completionPercentage :=
                 roundPct (countCompleted s pi.id) (countSteps s pi.id) }
  (pi', saveInstance s pi')

/-- The `for (const nextStepId of nextStepIds)` loop of
`processStepCompletion`: create a step instance for each resolvable id and push
it onto `currentSteps`. -/
def createNextSteps (s : EngineState) (pi : ProcessInstance)
    (template : ProcessTemplate) (ids : List String) (userId : String) :
    ProcessInstance × EngineState :=
  match ids with
  | [] => (pi, s)
  | nextStepId :: rest =>
    match template.steps.find? (fun st => st.stepId == nextStepId) with
    | some nextTemplateStep =>
      createNextSteps (createStepInstance s pi nextTemplateStep userId).2
        { pi with currentSteps := pi.currentSteps ++ [nextStepId] }
        template rest userId
    | none => createNextSteps s pi template rest userId

/-- `processStepCompletion(stepInstance, userId)`: drop the completed step from
`currentSteps`, resolve the next steps, create their instances, then either
complete the process (next set empty or all end steps) or recompute the
completion percentage.  The `processInstance` argument is the document that was
populated onto the step instance by the caller. -/
def processStepCompletion (pi : ProcessInstance) (si : StepInstance)
    (userId : String) (s : EngineState) : Except JsError Unit × EngineState :=
  match findTemplate s pi.processTemplateId with
  | none => (.error (.typeError "Cannot read properties of null (reading steps)"), s)
  | some template =>
    match template.steps.find? (fun st => st.stepId == si.stepId) with
    | none =>
      (.error (.typeError "Cannot read properties of undefined (reading nextSteps)"), s)
    | some templateStep =>
      let pi1 := { pi with currentSteps :=
        pi.currentSteps.filter (fun stepId => stepId != si.stepId) }
      let nextStepIds := determineNextSteps templateStep si (lookupVar si.vars "decision")
      let created := createNextSteps s pi1 template nextStepIds userId
      if nextStepIds.isEmpty || nextStepIds.all (fun i => template.endSteps.contains i) then
        completeProcess created.1 userId created.2
      else
        let updated := updateCompletionPercentage created.2 created.1
        (.ok (), saveInstance updated.2 updated.1)

/-- The decision-variable merge of `completeStep`: a truthy `decision` value is
copied into the step's `variables` map before saving. -/
def decisionVars (si1 : StepInstance) (dec : Option String) : StepInstance :=
  if decisionTruthy dec then
    { si1 with vars := mergeMap si1.vars [("decision", dec.getD "")] }
  else si1

/-- `completeStep(stepInstanceId, userId, formData, decision)`: authorization
via `canComplete`, then commit the completion fields, log history, and delegate
to `processStepCompletion`.  The template-step lookup of lines 108–111 happens
after the step was already saved. -/
def completeStep (stepInstanceId : Nat) (userId : String)
    (formData : List (String × String)) (decision : Option String)
    (s : EngineState) : Except JsError StepInstance × EngineState :=
  match findStepInstance s stepInstanceId with
  | none => (.error (.appError 404 "Step instance not found"), s)
  | some stepInstance =>
    match findInstance s stepInstance.processInstanceId with
    | none =>
      (.error (.typeError "Cannot read properties of null (reading processTemplateId)"), s)
    | some processInstance =>
      match findTemplate s processInstance.processTemplateId with
      | none => (.error (.appError 404 "Process template not found"), s)
      | some template =>
        if !canComplete stepInstance userId then
          (.error (.appError 403 "You are not authorized to complete this step"), s)
        else
          let si1 := { stepInstance with
                       status := "completed", endDate := some s.now,
                       completedBy := some userId,
                       formData := mergeMap stepInstance.formData formData }
          let si2 := decisionVars si1 decision
          let s1 := saveStepInstance s si2
          let s2 := appendHistory s1
            { processInstanceId := processInstance.id, stepInstanceId := some si2.id,
              action := "step_completed", performedBy := some userId,
              fromStatus := some "in_progress", toStatus := some "completed" }
          match template.steps.find? (fun st => st.stepId == stepInstance.stepId) with
          | none => (.error (.appError 400 "Template step not found"), s2)
          | some _ =>
            match processStepCompletion processInstance si2 userId s2 with
            | (.ok _, s3) => (.ok si2, s3)
            | (.error e, s3) => (.error e, s3)

/-- `startProcess(processInstanceId, userId)`: instance must exist and be in
`draft`; a missing template is dereferenced (`template.steps`) and raises a
`TypeError`, not an `AppError`.  On success the start step instance is created,
`currentSteps` is set to the start step, the instance is saved and the
`process_started` history row appended. -/
def startProcess (processInstanceId : Nat) (userId : String) (s : EngineState) :
    Except JsError ProcessInstance × EngineState :=
  match findInstance s processInstanceId with
  | none => (.error (.appError 404 "Process instance not found"), s)
  | some instanceDoc =>
    if instanceDoc.status != "draft" then
      (.error (.appError 400 "Process can only be started from draft status"), s)
    else
      match findTemplate s instanceDoc.processTemplateId with
      | none => (.error (.typeError "Cannot read properties of null (reading steps)"), s)
      | some template =>
        match template.steps.find? (fun st => st.stepId == template.startStep) with
        | none => (.error (.appError 400 "Start step not found in template"), s)
        | some startStep =>
          let inst1 := { instanceDoc with status := "active", startDate := some s.now }
          let s1 := (createStepInstance s inst1 startStep userId).2
          let inst2 := { inst1 with currentSteps := [startStep.stepId] }
          let s2 := saveInstance s1 inst2
          let s3 := appendHistory s2
            { processInstanceId := instanceDoc.id, stepInstanceId := none,
              action := "process_started", performedBy := some userId,
              fromStatus := some "draft", toStatus := some "active" }
          (.ok inst2, s3)

/-! ## Engine escalation (`escalateOverdueTasks`) -/

/-- The `StepInstance.find` filter of `escalateOverdueTasks`: pending or in
progress, past due, not yet escalated. -/
def overduePred (now : Int) (t : StepInstance) : Bool :=
  (t.status == "pending" || t.status == "in_progress") &&
  (match t.dueDate with
   | some d => decide (d < now)
   | none => false) &&
  t.escalated == false

/-- The escalation targets query: first active manager/admin (`limit(1)`). -/
def escalationTargets (s : EngineState) : List User :=
  (s.users.filter (fun u => (u.role == "manager" || u.role == "admin") && u.isActive)).take 1

/-- The escalated document the engine writes for an overdue task. -/
def engineEscalate (s : EngineState) (target : User) (t : StepInstance) : StepInstance :=
  { t with escalated := true, escalationLevel := 1,
           escalationHistory := t.escalationHistory ++
             [{ level := 1, escalatedTo := target.id, escalatedAt := s.now,
                reason := "Task overdue - automatic escalation" }] }

/-- The `step_escalated` history row of the engine escalation. -/
def escalateHistoryDoc (t : StepInstance) : HistoryEntry :=
  { processInstanceId := t.processInstanceId, stepInstanceId := some t.id,
    action := "step_escalated", performedBy := none,
    fromStatus := none, toStatus := none }

/-- The high-priority notification of the engine escalation. -/
def escalateNotifDoc (target : User) (t : StepInstance) : NotificationDoc :=
  { userId := target.id, ntype := "task_escalated",
    relatedProcess := some t.processInstanceId,
    relatedStep := some t.id, priority := "high" }

/-- The `for (const task of overdueTasks)` loop of `escalateOverdueTasks`.
The whole loop sits inside one `try` whose catch only logs: a notification
failure aborts the remaining iterations but keeps every write already saved. -/
def escalateLoop (s : EngineState) (tasks : List StepInstance) : EngineState :=
  match tasks with
  | [] => s
  | t :: rest =>
    match escalationTargets s with
    | [] => escalateLoop s rest
    | target :: _ =>
      match notifyUser (appendHistory (saveStepInstance s (engineEscalate s target t))
          (escalateHistoryDoc t)) (escalateNotifDoc target t) with
      | (.ok _, s3) => escalateLoop s3 rest
      | (.error _, s3) => s3

/-- `escalateOverdueTasks()` of the workflow engine. -/
def escalateOverdueTasks (s : EngineState) : EngineState :=
  escalateLoop s (s.stepInstances.filter (overduePred s.now))

/-! ## Scheduler (`schedulerService.js`) -/

/-- The overdue-check filter (`escalated: { $ne: true }`). -/
def overdueCheckPred (now : Int) (t : StepInstance) : Bool :=
  (t.status == "pending" || t.status == "in_progress") &&
  (match t.dueDate with
   | some d => decide (d < now)
   | none => false) &&
  !t.escalated

/-- The overdue notification sent to the step's assignee. -/
def overdueNotifDoc (uid : String) (t : StepInstance) : NotificationDoc :=
  { userId := uid, ntype := "task_overdue",
    relatedProcess := some t.processInstanceId,
    relatedStep := some t.id, priority := "high" }

/-- The notification phase of one `checkOverdueTasks` iteration: notify the
assignee if any; the per-task catch swallows a sink failure. -/
def checkOverdueNotify (s : EngineState) (t : StepInstance) : EngineState :=
  match t.assignedTo with
  | some uid => (notifyUser s (overdueNotifDoc uid t)).2
  | none => s

/-- The per-task loop of `checkOverdueTasks`: mark escalated, save, then notify
the assignee; each iteration has its own catch, so a notification failure only
skips that task's notification. -/
def checkOverdueLoop (s : EngineState) (tasks : List StepInstance) : EngineState :=
  match tasks with
  | [] => s
  | t :: rest =>
    checkOverdueLoop
      (checkOverdueNotify (saveStepInstance s { t with escalated := true }) t) rest

/-- `checkOverdueTasks()` (scheduler, every 15 minutes). -/
def checkOverdueTasks (s : EngineState) : EngineState :=
  checkOverdueLoop s (s.stepInstances.filter (overdueCheckPred s.now))

/-- The cascade filter of `processTaskEscalations`: already escalated, more
than two hours past due, below the level-3 cap. -/
def cascadePred (now : Int) (t : StepInstance) : Bool :=
  (t.status == "pending" || t.status == "in_progress") &&
  (match t.dueDate with
   | some d => decide (d < now - 2 * 60 * 60 * 1000)
   | none => false) &&
  t.escalated &&
  decide (t.escalationLevel < 3)

/-- All active manager/admin users (the cascade notifies every one of them). -/
def cascadeTargets (s : EngineState) : List User :=
  s.users.filter (fun u => (u.role == "manager" || u.role == "admin") && u.isActive)

/-- The cascade notification document for target `u` about task `t`. -/
def cascadeNotif (u : User) (t : StepInstance) : NotificationDoc :=
  { userId := u.id, ntype := "task_escalated",
    relatedProcess := some t.processInstanceId,
    relatedStep := some t.id, priority := "urgent" }

/-- The `for (const target of escalationTargets)` notification fan-out; a sink
failure aborts the remaining targets (the per-task catch swallows it). -/
def notifyCascadeTargets (s : EngineState) (targets : List User) (t : StepInstance) :
    EngineState :=
  match targets with
  | [] => s
  | u :: rest =>
    match notifyUser s (cascadeNotif u t) with
    | (.ok _, s') => notifyCascadeTargets s' rest t
    | (.error _, s') => s'

/-- The notification phase of one cascade iteration (targets are re-queried
from the current state, whose user directory the loop never changes). -/
def cascadeNotifyPhase (s : EngineState) (t : StepInstance) : EngineState :=
  notifyCascadeTargets s (cascadeTargets s) t

/-- The per-task loop of `processTaskEscalations`: bump the escalation level,
save, then notify every active manager/admin.  No history row and no
`escalationHistory` entry is written by this job. -/
def cascadeLoop (s : EngineState) (tasks : List StepInstance) : EngineState :=
  match tasks with
  | [] => s
  | t :: rest =>
    cascadeLoop
      (cascadeNotifyPhase
        (saveStepInstance s { t with escalationLevel := t.escalationLevel + 1 }) t) rest

/-- `processTaskEscalations()` (scheduler, every 30 minutes). -/
def processTaskEscalations (s : EngineState) : EngineState :=
  cascadeLoop s (s.stepInstances.filter (cascadePred s.now))

/-! ## The escalation transition system (for the escalation-level invariant) -/

/-- One step of the system's escalation-related operations: the engine's
escalation pass, the scheduler's overdue check, the scheduler's escalation
cascade, or the wall clock advancing between job runs. -/
inductive EscStep : EngineState → EngineState → Prop where
  | engine (s : EngineState) : EscStep s (escalateOverdueTasks s)
  | overdue (s : EngineState) : EscStep s (checkOverdueTasks s)
  | cascade (s : EngineState) : EscStep s (processTaskEscalations s)
  | tick (s : EngineState) (t : Int) : EscStep s { s with now := t }

/-- Reachability under the escalation operations. -/
def EscReach : EngineState → EngineState → Prop :=
  Relation.ReflTransGen EscStep

/-- An initial state: distinct step-instance ids, nothing escalated yet. -/
def InitEscState (s : EngineState) : Prop :=
  (s.stepInstances.map (fun t => t.id)).Nodup ∧
  ∀ t ∈ s.stepInstances, t.escalated = false ∧ t.escalationLevel = 0

/-- The escalation invariant: distinct ids, levels capped at 3, and a step
that was never escalated still sits at level 0. -/
def SafeEscState (s : EngineState) : Prop :=
  (s.stepInstances.map (fun t => t.id)).Nodup ∧
  ∀ t ∈ s.stepInstances, t.escalationLevel ≤ 3 ∧
    (t.escalated = false → t.escalationLevel = 0)

instance (s : EngineState) : Decidable (InitEscState s) := by
  unfold InitEscState
  exact inferInstance

/-! ## Template reference validation -/

/-- `validateStepReferences(steps, startStep, endSteps)` of the template
controller: start step, end steps and every `nextSteps` target must be a
defined step id; the first violation throws an `AppError 400`. -/
def validateStepReferences (steps : List StepDefinition) (startStep : String)
    (endSteps : List String) : Except JsError Unit :=
  let stepIds := steps.map (fun st => st.stepId)
  if !(stepIds.contains startStep) then
    .error (.appError 400 "Start step must exist in the steps array")
  else
    let invalidEndSteps := endSteps.filter (fun e => !(stepIds.contains e))
    if !invalidEndSteps.isEmpty then
      .error (.appError 400 "End steps not found in steps array")
    else
      match steps.find? (fun st =>
          !(((st.nextSteps.map (fun ns => ns.stepId)).filter
              (fun i => !(stepIds.contains i))).isEmpty)) with
      | some st =>
        .error (.appError 400 ("Step references invalid next steps: " ++ st.stepId))
      | none => .ok ()

/-- The `processTemplateSchema.pre('save')` hook: checks only the start step
and the end steps (not `nextSteps`). -/
def preSaveValidate (steps : List StepDefinition) (startStep : String)
    (endSteps : List String) : Except JsError Unit :=
  if !(steps.any (fun st => st.stepId == startStep)) then
    .error (.appError 400 "Start step must exist in the steps array")
  else
    let stepIds := steps.map (fun st => st.stepId)
    let invalidEndSteps := endSteps.filter (fun e => !(stepIds.contains e))
    if !invalidEndSteps.isEmpty then
      .error (.appError 400 "End steps not found in steps array")
    else .ok ()

/-- The reference invariant of the data model: `startStep`, every `endSteps`
member and every `nextSteps[*].stepId` resolve to a defined step. -/
def referenceInvariant (steps : List StepDefinition) (startStep : String)
    (endSteps : List String) : Prop :=
  startStep ∈ steps.map (fun st => st.stepId) ∧
  (∀ e ∈ endSteps, e ∈ steps.map (fun st => st.stepId)) ∧
  ∀ st ∈ steps, ∀ ns ∈ st.nextSteps, ns.stepId ∈ steps.map (fun st => st.stepId)

instance (steps : List StepDefinition) (startStep : String) (endSteps : List String) :
    Decidable (referenceInvariant steps startStep endSteps) := by
  unfold referenceInvariant
  exact inferInstance

/-- The parts of the world a scheduler/escalation pass never touches: user
directory, clock, sink flag, process instances, templates, and the identity
sequence of the step-instance collection. -/
def FramePres (s s' : EngineState) : Prop :=
  s'.users = s.users ∧ s'.now = s.now ∧
  s'.notificationSinkFails = s.notificationSinkFails ∧
  s'.instances = s.instances ∧ s'.templates = s.templates ∧
  s'.stepInstances.map (fun t => t.id) = s.stepInstances.map (fun t => t.id)

/-! ## Concrete fixtures used by witnesses and counterexamples -/

/-- A generic in-progress step instance used when exercising the routing
functions on concrete inputs. -/
def exStepInstance : StepInstance :=
  { id := 10, processInstanceId := 1, stepId := "D", name := "d", type := "decision",
    status := "in_progress", assignedTo := none, assignedRole := none,
    assignedDepartment := none, startDate := none, endDate := none, dueDate := none,
    formData := [], escalated := false, escalationLevel := 0, escalationHistory := [],
    completedBy := none, vars := [] }

/-- The decision step of the spec's routing example:
`nextSteps = [{condition:"approve", stepId:"A"}, {condition:"reject", stepId:"B"}]`. -/
def exDecisionStep : StepDefinition :=
  { stepId := "D", name := "d", type := "decision", assigneeType := "user",
    assignees := [], nextSteps := [⟨"approve", "A"⟩, ⟨"reject", "B"⟩],
    timeLimit := none, autoComplete := false }

/-- The start step of the 2-step example template: one unconditional
transition to the end step. -/
def exStartStep : StepDefinition :=
  { stepId := "s1", name := "start", type := "start", assigneeType := "user",
    assignees := ["alice"], nextSteps := [⟨"", "end"⟩], timeLimit := none,
    autoComplete := false }

/-- The 2-step template of the spec's completion example: start step `s1` with
one unconditional transition to the end step `end`. -/
def exTemplate2 : ProcessTemplate :=
  { id := 7
    steps :=
      [ exStartStep,
        { stepId := "end", name := "fin", type := "end", assigneeType := "system",
          assignees := [], nextSteps := [], timeLimit := none, autoComplete := false } ]
    startStep := "s1", endSteps := ["end"] }

/-- An active instance of `exTemplate2` sitting on `s1`. -/
def exInstanceActive : ProcessInstance :=
  { id := 1, processTemplateId := 7, name := "p", status := "active",
    currentSteps := ["s1"], startDate := some 0, endDate := none,
    completionPercentage := 0, initiatedBy := "alice" }

/-- The in-progress step instance for `s1`, assigned to alice. -/
def exStepInProgress : StepInstance :=
  { id := 10, processInstanceId := 1, stepId := "s1", name := "start",
    type := "user_task", status := "in_progress", assignedTo := some "alice",
    assignedRole := none, assignedDepartment := none, startDate := some 0,
    endDate := none, dueDate := none, formData := [], escalated := false,
    escalationLevel := 0, escalationHistory := [], completedBy := none, vars := [] }

/-- The running state for the completion example. -/
def exStateActive : EngineState :=
  { templates := [exTemplate2], instances := [exInstanceActive],
    stepInstances := [exStepInProgress], users := [⟨"mgr", "manager", true⟩],
    history := [], notifications := [], now := 100, nextStepInstanceId := 11,
    notificationSinkFails := false }

/-- The same world before the process was started. -/
def exStateDraft : EngineState :=
  { exStateActive with
    instances := [{ exInstanceActive with
                    status := "draft", currentSteps := [], startDate := none }]
    stepInstances := [] }

/-- A draft instance whose template id resolves to nothing. -/
def exStateDraftNoTemplate : EngineState :=
  { exStateDraft with templates := [] }

/-- A template whose start step is a service task (auto-completed on creation). -/
def exTemplateSvc : ProcessTemplate :=
  { id := 8
    steps :=
      [ { stepId := "s1", name := "svc", type := "service_task", assigneeType := "system",
          assignees := [], nextSteps := [⟨"", "end"⟩], timeLimit := none,
          autoComplete := false },
        { stepId := "end", name := "fin", type := "end", assigneeType := "system",
          assignees := [], nextSteps := [], timeLimit := none, autoComplete := false } ]
    startStep := "s1", endSteps := ["end"] }

/-- A draft instance of the service-task template. -/
def exStateDraftSvc : EngineState :=
  { exStateDraft with
    templates := [exTemplateSvc]
    instances := [{ exInstanceActive with
                    id := 2, processTemplateId := 8, status := "draft",
                    currentSteps := [], startDate := none }] }

/-- An overdue, unescalated pending step together with an active manager. -/
def exStateOverdue : EngineState :=
  { exStateActive with
    stepInstances := [{ exStepInProgress with status := "pending", dueDate := some 50 }] }

/-- An escalated step more than two hours past due at level 0 (cascade-eligible). -/
def exStateCascade : EngineState :=
  { exStateActive with
    now := 10000000
    stepInstances := [{ exStepInProgress with
                        status := "pending", dueDate := some 100, escalated := true }] }

/-- The running state with a failing notification sink. -/
def exStateSinkFail : EngineState :=
  { exStateActive with notificationSinkFails := true }

/-- Steps with a dangling `nextSteps` reference (for the validation claim). -/
def exBadSteps : List StepDefinition :=
  [ { stepId := "a", name := "a", type := "user_task", assigneeType := "user",
      assignees := [], nextSteps := [⟨"", "zzz"⟩], timeLimit := none,
      autoComplete := false } ]

/-! ## Generic lemmas about keyed document collections -/

section Keyed

variable {α : Type} {key : α → Nat} {l : List α} {a b : α} {i : Nat}

theorem replaceBy_map_key : (replaceBy key l a).map key = l.map key := by
  unfold replaceBy
  rw [List.map_map]
  apply List.map_congr_left
  intro q hq
  by_cases h : key q = key a <;> simp [Function.comp, h]

theorem mem_replaceBy (h : b ∈ replaceBy key l a) : b = a ∨ b ∈ l := by
  unfold replaceBy at h
  rcases List.mem_map.1 h with ⟨q, hq, hqe⟩
  by_cases hk : (key q == key a) = true
  · rw [if_pos hk] at hqe
    exact Or.inl hqe.symm
  · rw [if_neg hk] at hqe
    exact Or.inr (hqe ▸ hq)

theorem entryBy_cons (q : α) (t : List α) :
    entryBy key (q :: t) i = if key q = i then some q else entryBy key t i := by
  by_cases h : key q = i
  · rw [if_pos h]
    exact List.find?_cons_of_pos _ (by simpa using h)
  · rw [if_neg h]
    exact List.find?_cons_of_neg _ (by simpa using h)

theorem replaceBy_cons (q : α) (t : List α) :
    replaceBy key (q :: t) a =
      (if key q = key a then a else q) :: replaceBy key t a := by
  simp only [replaceBy, List.map_cons]
  by_cases h : key q = key a <;> simp [h]

theorem entryBy_replaceBy_ne (h : i ≠ key a) :
    entryBy key (replaceBy key l a) i = entryBy key l i := by
  induction l with
  | nil => rfl
  | cons q t ih =>
    rw [replaceBy_cons, entryBy_cons, entryBy_cons]
    by_cases hk : key q = key a
    · rw [if_pos hk, if_neg (fun e => h e.symm), if_neg (fun e => h (hk.symm.trans e).symm)]
      exact ih
    · rw [if_neg hk]
      by_cases hq : key q = i
      · rw [if_pos hq, if_pos hq]
      · rw [if_neg hq, if_neg hq]
        exact ih

theorem entryBy_replaceBy_self (hb : entryBy key l (key a) = some b) :
    entryBy key (replaceBy key l a) (key a) = some a := by
  induction l with
  | nil => simp [entryBy] at hb
  | cons q t ih =>
    rw [replaceBy_cons, entryBy_cons]
    by_cases hk : key q = key a
    · rw [if_pos hk, if_pos rfl]
    · rw [if_neg hk, if_neg hk]
      rw [entryBy_cons, if_neg hk] at hb
      exact ih hb

theorem findInstance_save_update (s : EngineState) (p q : ProcessInstance)
    (hb : entryBy (fun r : ProcessInstance => r.id) s.instances p.id = some q) :
    findInstance (saveInstance (updateCompletionPercentage s p).2
        (updateCompletionPercentage s p).1) p.id =
      some { p with
        completionPercentage := roundPct (countCompleted s p.id) (countSteps s p.id) } := by
  have h1 : entryBy (fun r : ProcessInstance => r.id) s.instances
      ((fun r : ProcessInstance => r.id)
        ({ p with
           completionPercentage :=
             roundPct (countCompleted s p.id) (countSteps s p.id) } : ProcessInstance)) =
      some q := hb
  exact entryBy_replaceBy_self (entryBy_replaceBy_self h1)

theorem replaceBy_of_entryBy_none (h : entryBy key l (key a) = none) :
    replaceBy key l a = l := by
  induction l with
  | nil => rfl
  | cons q t ih =>
    rw [entryBy_cons] at h
    by_cases hk : key q = key a
    · rw [if_pos hk] at h
      exact absurd h (by simp)
    · rw [if_neg hk] at h
      rw [replaceBy_cons, if_neg hk, ih h]

theorem entryBy_of_mem_nodup (hnd : (l.map key).Nodup) (ha : a ∈ l) :
    entryBy key l (key a) = some a := by
  induction l with
  | nil => simp at ha
  | cons q t ih =>
    have hnd' := hnd
    rw [List.map_cons, List.nodup_cons] at hnd'
    rcases List.mem_cons.1 ha with rfl | hat
    · rw [entryBy_cons, if_pos rfl]
    · rw [entryBy_cons, if_neg ?_]
      · exact ih hnd'.2 hat
      · intro e
        exact hnd'.1 (e ▸ List.mem_map_of_mem key hat)

theorem entryBy_some (h : entryBy key l i = some a) : a ∈ l ∧ key a = i := by
  refine ⟨List.mem_of_find?_eq_some h, ?_⟩
  have := List.find?_some h
  simpa using this

theorem eq_of_mem_mem_nodup (hnd : (l.map key).Nodup) (ha : a ∈ l) (hb : b ∈ l)
    (hk : key a = key b) : a = b := by
  have h1 := entryBy_of_mem_nodup hnd ha
  have h2 := entryBy_of_mem_nodup hnd hb
  rw [hk] at h1
  exact Option.some.inj (h1.symm.trans h2)

end Keyed

/-! ## Routing resolver lemmas (claims C1, C10) -/

/-- A condition string always evaluates true against itself as the decision. -/
theorem evaluateCondition_self (d : String) : evaluateCondition d (some d) = true := by
  unfold evaluateCondition
  by_cases h : (d == "true" || d == "") = true
  · rw [if_pos h]
  · rw [if_neg h]
    have hd : (d != "") = true := by
      rcases Bool.or_eq_false_iff.1 (Bool.eq_false_iff.2 h) with ⟨-, h2⟩
      simpa using h2
    simp [hd]

/-- If the condition-evaluation pass collected nothing, no entry's condition
can equal a truthy decision literal. -/
theorem no_decision_literal_match (nextSteps : List NextStepDef) (d : String)
    (h : nextSteps.filter (fun ns =>
      ns.condition == "" || evaluateCondition ns.condition (some d)) = []) :
    nextSteps.find? (fun ns => ns.condition == d) = none := by
  rw [List.find?_eq_none]
  intro ns hns hc
  have hcd : ns.condition = d := by simpa using hc
  apply (List.filter_eq_nil_iff.1 h) ns hns
  rw [hcd]
  simp [evaluateCondition_self]

/-- `determineNextSteps` implements the four-stage precedence of the spec. -/
theorem determineNextSteps_eq_routeSpec (ts : StepDefinition) (si : StepInstance)
    (d : Option String) : determineNextSteps ts si d = routeSpec ts d := by
  unfold determineNextSteps routeSpec firstFallback
  cases hns : ts.nextSteps with
  | nil => cases d <;> simp
  | cons f rest =>
    simp only [List.isEmpty_cons, Bool.false_eq_true, if_false, Bool.not_false, if_true]
    by_cases hX : (((f :: rest).filter (fun ns =>
        ns.condition == "" || evaluateCondition ns.condition d)).map
        (fun ns => ns.stepId)).isEmpty = true
    · simp only [hX, Bool.true_and]
      by_cases hA : (ts.type == "decision" && decisionTruthy d) = true
      · simp only [hA, if_true]
        cases d with
        | none => simp [decisionTruthy] at hA
        | some v =>
          cases hf : (f :: rest).find? (fun ns => ns.condition == v) with
          | some ds => simp [hf]
          | none =>
            rw [List.isEmpty_iff] at hX
            simp [hf, hX]
      · simp only [hA, if_false]
        rw [List.isEmpty_iff] at hX
        simp [hX]
    · simp only [hX, Bool.false_and, if_false]
      have hX' : (((f :: rest).filter (fun ns =>
          ns.condition == "" || evaluateCondition ns.condition d)).map
          (fun ns => ns.stepId)).isEmpty = false := Bool.eq_false_iff.2 hX
      simp [hX']

/-- The variant without the decision-literal branch agrees with the source
function everywhere: whenever that branch could fire, its search finds
nothing. -/
theorem determineNextSteps_eq_noDecision (ts : StepDefinition) (si : StepInstance)
    (d : Option String) :
    determineNextSteps ts si d = determineNextStepsNoDecision ts si d := by
  unfold determineNextSteps determineNextStepsNoDecision
  cases hns : ts.nextSteps with
  | nil => simp
  | cons f rest =>
    simp only [List.isEmpty_cons, Bool.false_eq_true, if_false, Bool.not_false, if_true]
    by_cases hG : ((((f :: rest).filter (fun ns =>
        ns.condition == "" || evaluateCondition ns.condition d)).map
        (fun ns => ns.stepId)).isEmpty && ts.type == "decision" && decisionTruthy d) = true
    · rcases Bool.and_eq_true_iff.1 hG with ⟨hG1, hG3⟩
      rcases Bool.and_eq_true_iff.1 hG1 with ⟨hX, hA⟩
      simp only [hG, if_true]
      cases d with
      | none => simp [decisionTruthy] at hG3
      | some v =>
        have hfil : (f :: rest).filter (fun ns =>
            ns.condition == "" || evaluateCondition ns.condition (some v)) = [] := by
          rw [List.isEmpty_iff, List.map_eq_nil_iff] at hX
          exact hX
        simp [no_decision_literal_match _ v hfil]
    · simp [hG]

/-! ## Template validation lemmas (claim C8) -/

/-- A list with a member is not empty (Boolean form). -/
theorem isEmpty_false_of_mem {α : Type} {x : α} {l : List α} (h : x ∈ l) :
    l.isEmpty = false := by
  cases l with
  | nil => simp at h
  | cons q t => simp

/-- The controller validation accepts exactly the templates satisfying the
reference invariant. -/
theorem validateStepReferences_ok_iff (steps : List StepDefinition)
    (startStep : String) (endSteps : List String) :
    validateStepReferences steps startStep endSteps = .ok () ↔
      referenceInvariant steps startStep endSteps := by
  unfold validateStepReferences referenceInvariant
  by_cases h1 : startStep ∈ steps.map (fun st => st.stepId)
  · rw [if_neg (by simpa using h1)]
    by_cases h2 : ∀ e ∈ endSteps, e ∈ steps.map (fun st => st.stepId)
    · have hemp : (endSteps.filter (fun e =>
          !((steps.map (fun st => st.stepId)).contains e))) = [] := by
        rw [List.filter_eq_nil_iff]
        intro e he
        simp [h2 e he]
      rw [if_neg (by rw [hemp]; simp)]
      by_cases h3 : ∀ st ∈ steps, ∀ ns ∈ st.nextSteps,
          ns.stepId ∈ steps.map (fun st => st.stepId)
      · have hf : steps.find? (fun st =>
            !(((st.nextSteps.map (fun ns => ns.stepId)).filter
                (fun i => !((steps.map (fun st => st.stepId)).contains i))).isEmpty)) =
              none := by
          rw [List.find?_eq_none]
          intro st hst
          have hfil : ((st.nextSteps.map (fun ns => ns.stepId)).filter
              (fun i => !((steps.map (fun st => st.stepId)).contains i))) = [] := by
            rw [List.filter_eq_nil_iff]
            intro i hi
            rcases List.mem_map.1 hi with ⟨ns, hns, rfl⟩
            simp [h3 st hst ns hns]
          rw [hfil]
          simp
        rw [hf]
        exact iff_of_true rfl ⟨h1, h2, h3⟩
      · push_neg at h3
        obtain ⟨st, hst, ns, hns, hnotin⟩ := h3
        cases hf : steps.find? (fun st =>
            !(((st.nextSteps.map (fun ns => ns.stepId)).filter
                (fun i => !((steps.map (fun st => st.stepId)).contains i))).isEmpty)) with
        | none =>
          exfalso
          apply List.find?_eq_none.1 hf st hst
          have hmem : ns.stepId ∈ (st.nextSteps.map (fun ns => ns.stepId)).filter
              (fun i => !((steps.map (fun st => st.stepId)).contains i)) :=
            List.mem_filter.2 ⟨List.mem_map_of_mem _ hns, by simp [hnotin]⟩
          rw [isEmpty_false_of_mem hmem]
          rfl
        | some st' =>
          exact iff_of_false (by simp) (fun h => hnotin (h.2.2 st hst ns hns))
    · have hne : (endSteps.filter (fun e =>
          !((steps.map (fun st => st.stepId)).contains e))).isEmpty = false := by
        push_neg at h2
        obtain ⟨e, he, hnotin⟩ := h2
        exact isEmpty_false_of_mem
          (List.mem_filter.2 ⟨he, by simp [hnotin]⟩)
      rw [if_pos (by rw [hne]; rfl)]
      refine iff_of_false (by simp) (fun h => ?_)
      push_neg at h2
      obtain ⟨e, he, hnotin⟩ := h2
      exact hnotin (h.2.1 e he)
  · rw [if_pos (by simpa using h1)]
    exact iff_of_false (by simp) (fun h => h1 h.1)

/-- Every rejection of the controller validation is an `AppError 400`. -/
theorem validateStepReferences_shape (steps : List StepDefinition)
    (startStep : String) (endSteps : List String) :
    validateStepReferences steps startStep endSteps = .ok () ∨
      ∃ msg, validateStepReferences steps startStep endSteps = .error (.appError 400 msg) := by
  unfold validateStepReferences
  by_cases c1 : ((!((steps.map (fun st => st.stepId)).contains startStep)) = true)
  · rw [if_pos c1]
    exact Or.inr ⟨_, rfl⟩
  · rw [if_neg c1]
    by_cases c2 : ((!((endSteps.filter (fun e =>
        !((steps.map (fun st => st.stepId)).contains e))).isEmpty)) = true)
    · rw [if_pos c2]
      exact Or.inr ⟨_, rfl⟩
    · rw [if_neg c2]
      cases hf : steps.find? (fun st =>
          !(((st.nextSteps.map (fun ns => ns.stepId)).filter
              (fun i => !((steps.map (fun st => st.stepId)).contains i))).isEmpty)) with
      | none => exact Or.inl rfl
      | some st' => exact Or.inr ⟨_, rfl⟩

/-- The mongoose pre-save hook accepts exactly the templates whose start step
and end steps resolve (it does not inspect `nextSteps`). -/
theorem preSaveValidate_ok_iff (steps : List StepDefinition)
    (startStep : String) (endSteps : List String) :
    preSaveValidate steps startStep endSteps = .ok () ↔
      startStep ∈ steps.map (fun st => st.stepId) ∧
      ∀ e ∈ endSteps, e ∈ steps.map (fun st => st.stepId) := by
  unfold preSaveValidate
  by_cases h1 : startStep ∈ steps.map (fun st => st.stepId)
  · have hany : steps.any (fun st => st.stepId == startStep) = true := by
      rcases List.mem_map.1 h1 with ⟨st, hst, rfl⟩
      exact List.any_eq_true.2 ⟨st, hst, by simp⟩
    rw [if_neg (by simp [hany])]
    by_cases h2 : ∀ e ∈ endSteps, e ∈ steps.map (fun st => st.stepId)
    · have hemp : (endSteps.filter (fun e =>
          !((steps.map (fun st => st.stepId)).contains e))) = [] := by
        rw [List.filter_eq_nil_iff]
        intro e he
        simp [h2 e he]
      rw [if_neg (by rw [hemp]; simp)]
      exact iff_of_true rfl ⟨h1, h2⟩
    · have hne : (endSteps.filter (fun e =>
          !((steps.map (fun st => st.stepId)).contains e))).isEmpty = false := by
        push_neg at h2
        obtain ⟨e, he, hnotin⟩ := h2
        exact isEmpty_false_of_mem
          (List.mem_filter.2 ⟨he, by simp [hnotin]⟩)
      rw [if_pos (by rw [hne]; rfl)]
      refine iff_of_false (by simp) (fun h => ?_)
      push_neg at h2
      obtain ⟨e, he, hnotin⟩ := h2
      exact hnotin (h.2 e he)
  · have hany : steps.any (fun st => st.stepId == startStep) = false := by
      rw [Bool.eq_false_iff]
      intro hc
      rcases List.any_eq_true.1 hc with ⟨st, hst, hb⟩
      exact h1 (List.mem_map.2 ⟨st, hst, by simpa using hb⟩)
    rw [if_pos (by simp [hany])]
    exact iff_of_false (by simp) (fun h => h1 h.1)

/-! ## Claim theorems: routing and validation -/

/-- C1: `determineNextSteps` follows the spec's four-stage precedence (it
agrees with `routeSpec`, the transcription of the spec's algorithm), and on
the spec's decision example `{approve→A, reject→B}` the decision `approve`
yields exactly `[A]` while the unmatched decision `unknown` routes to `[A]`
via the first-entry fallback, with no error. -/
theorem claim1_routing_precedence :
    (∀ ts si d, determineNextSteps ts si d = routeSpec ts d) ∧
    determineNextSteps exDecisionStep exStepInstance (some "approve") = ["A"] ∧
    determineNextSteps exDecisionStep exStepInstance (some "unknown") = ["A"] :=
  ⟨determineNextSteps_eq_routeSpec, by decide, by decide⟩

/-- C10: the decision-literal search branch of `determineNextSteps` is dead
code: the function agrees everywhere with the variant that removes it, since
any entry whose condition equals the supplied decision is already collected by
the condition-evaluation pass. -/
theorem claim10_decision_branch_redundant :
    ∀ ts si d, determineNextSteps ts si d = determineNextStepsNoDecision ts si d :=
  determineNextSteps_eq_noDecision

/-- C8: template validation accepts a template iff the reference invariant
holds (start step, end steps and all `nextSteps` targets resolve); any
violation is rejected with a `ValidationError` (`AppError 400`); in addition
the pre-save hook accepts iff the start-step and end-step halves of the
invariant hold. -/
theorem claim8_reference_validation :
    ∀ (steps : List StepDefinition) (startStep : String) (endSteps : List String),
    (validateStepReferences steps startStep endSteps = .ok () ↔
      referenceInvariant steps startStep endSteps) ∧
    (¬ referenceInvariant steps startStep endSteps →
      ∃ msg, validateStepReferences steps startStep endSteps =
        .error (.appError 400 msg)) ∧
    (preSaveValidate steps startStep endSteps = .ok () ↔
      startStep ∈ steps.map (fun st => st.stepId) ∧
      ∀ e ∈ endSteps, e ∈ steps.map (fun st => st.stepId)) := by
  intro steps startStep endSteps
  refine ⟨validateStepReferences_ok_iff steps startStep endSteps, fun hinv => ?_,
    preSaveValidate_ok_iff steps startStep endSteps⟩
  rcases validateStepReferences_shape steps startStep endSteps with hok | herr
  · exact absurd ((validateStepReferences_ok_iff steps startStep endSteps).1 hok) hinv
  · exact herr

/-- Witness for C8 at a concrete dangling-reference template. -/
theorem claim8_reference_validation_witness :
    ∃ msg, validateStepReferences exBadSteps "a" [] = .error (.appError 400 msg) :=
  (claim8_reference_validation exBadSteps "a" []).2.1 (by decide)

/-! ## Frame lemmas for the escalation passes -/

theorem framePres_refl (s : EngineState) : FramePres s s :=
  ⟨rfl, rfl, rfl, rfl, rfl, rfl⟩

theorem framePres_trans {s t u : EngineState} (h1 : FramePres s t)
    (h2 : FramePres t u) : FramePres s u := by
  obtain ⟨p1, p2, p3, p4, p5, p6⟩ := h1
  obtain ⟨q1, q2, q3, q4, q5, q6⟩ := h2
  exact ⟨q1.trans p1, q2.trans p2, q3.trans p3,
    q4.trans p4, q5.trans p5, q6.trans p6⟩

theorem framePres_save (s : EngineState) (t : StepInstance) :
    FramePres s (saveStepInstance s t) := by
  refine ⟨rfl, rfl, rfl, rfl, rfl, ?_⟩
  exact replaceBy_map_key

theorem framePres_hist (s : EngineState) (h : HistoryEntry) :
    FramePres s (appendHistory s h) :=
  ⟨rfl, rfl, rfl, rfl, rfl, rfl⟩

theorem framePres_notify (s : EngineState) (n : NotificationDoc) :
    FramePres s ((notifyUser s n).2) := by
  unfold notifyUser
  by_cases hb : s.notificationSinkFails = true <;>
    simp [hb, framePres_refl, FramePres]

theorem notifyUser_steps (s : EngineState) (n : NotificationDoc) :
    ((notifyUser s n).2).stepInstances = s.stepInstances := by
  unfold notifyUser
  by_cases hb : s.notificationSinkFails = true <;> simp [hb]

theorem notifyUser_ok (s : EngineState) (n : NotificationDoc)
    (hb : s.notificationSinkFails = false) :
    notifyUser s n = (.ok (), { s with notifications := s.notifications ++ [n] }) := by
  unfold notifyUser
  rw [hb]
  rfl

theorem engineEscalate_congr {s s' : EngineState} (h : s'.now = s.now)
    (u : User) (t : StepInstance) : engineEscalate s' u t = engineEscalate s u t := by
  unfold engineEscalate
  rw [h]

theorem escalationTargets_congr {s s' : EngineState} (h : s'.users = s.users) :
    escalationTargets s' = escalationTargets s := by
  unfold escalationTargets
  rw [h]

theorem cascadeTargets_congr {s s' : EngineState} (h : s'.users = s.users) :
    cascadeTargets s' = cascadeTargets s := by
  unfold cascadeTargets
  rw [h]

/-! ## Loop lemmas: `escalateLoop` (engine `escalateOverdueTasks`) -/

theorem escalateLoop_cons_noTargets {s : EngineState} {t : StepInstance}
    {rest : List StepInstance} (htg : escalationTargets s = []) :
    escalateLoop s (t :: rest) = escalateLoop s rest := by
  conv_lhs => unfold escalateLoop
  rw [htg]

theorem escalateLoop_cons_targets {s : EngineState} {t : StepInstance}
    {rest : List StepInstance} {target : User} {l : List User}
    (htg : escalationTargets s = target :: l) :
    escalateLoop s (t :: rest) =
      match notifyUser (appendHistory (saveStepInstance s (engineEscalate s target t))
          (escalateHistoryDoc t)) (escalateNotifDoc target t) with
      | (.ok _, s3) => escalateLoop s3 rest
      | (.error _, s3) => s3 := by
  conv_lhs => unfold escalateLoop
  rw [htg]

theorem escalateLoop_frame (ts : List StepInstance) :
    ∀ s, FramePres s (escalateLoop s ts) := by
  induction ts with
  | nil => intro s; exact framePres_refl s
  | cons t rest ih =>
    intro s
    cases htg : escalationTargets s with
    | nil =>
      rw [escalateLoop_cons_noTargets htg]
      exact ih s
    | cons target l =>
      rw [escalateLoop_cons_targets htg]
      cases hnu : notifyUser (appendHistory (saveStepInstance s (engineEscalate s target t))
          (escalateHistoryDoc t)) (escalateNotifDoc target t) with
      | mk res s3 =>
        have h3 : (notifyUser (appendHistory (saveStepInstance s (engineEscalate s target t))
            (escalateHistoryDoc t)) (escalateNotifDoc target t)).2 = s3 := by rw [hnu]
        have hs3 : FramePres s s3 := by
          rw [← h3]
          exact framePres_trans
            (framePres_trans (framePres_save s _) (framePres_hist _ _))
            (framePres_notify _ _)
        cases res with
        | ok u => exact framePres_trans hs3 (ih s3)
        | error e => exact hs3

theorem escalateLoop_entry_skip (ts : List StepInstance) :
    ∀ s i, (∀ t ∈ ts, t.id ≠ i) →
    findStepInstance (escalateLoop s ts) i = findStepInstance s i := by
  induction ts with
  | nil => intro s i h; rfl
  | cons t rest ih =>
    intro s i h
    cases htg : escalationTargets s with
    | nil =>
      rw [escalateLoop_cons_noTargets htg]
      exact ih s i (fun t' ht' => h t' (List.mem_cons_of_mem _ ht'))
    | cons target l =>
      rw [escalateLoop_cons_targets htg]
      cases hnu : notifyUser (appendHistory (saveStepInstance s (engineEscalate s target t))
          (escalateHistoryDoc t)) (escalateNotifDoc target t) with
      | mk res s3 =>
        have h3 : (notifyUser (appendHistory (saveStepInstance s (engineEscalate s target t))
            (escalateHistoryDoc t)) (escalateNotifDoc target t)).2 = s3 := by rw [hnu]
        have hs1 : findStepInstance (saveStepInstance s (engineEscalate s target t)) i =
            findStepInstance s i := by
          unfold findStepInstance saveStepInstance
          exact entryBy_replaceBy_ne (fun e => h t (List.mem_cons_self t rest) e.symm)
        have hs3 : findStepInstance s3 i = findStepInstance s i := by
          rw [← h3]
          unfold findStepInstance
          rw [notifyUser_steps]
          exact hs1
        cases res with
        | ok u =>
          rw [ih s3 i (fun t' ht' => h t' (List.mem_cons_of_mem _ ht'))]
          exact hs3
        | error e => exact hs3

theorem escalateIter_state {s : EngineState} {target : User} {t0 : StepInstance}
    {res : Except JsError Unit} {s3 : EngineState}
    (hnu : notifyUser (appendHistory (saveStepInstance s (engineEscalate s target t0))
      (escalateHistoryDoc t0)) (escalateNotifDoc target t0) = (res, s3)) :
    s3.stepInstances =
      replaceBy (fun q => q.id) s.stepInstances (engineEscalate s target t0) ∧
    s3.users = s.users ∧ s3.now = s.now ∧
    s3.notificationSinkFails = s.notificationSinkFails := by
  have h3 : (notifyUser (appendHistory (saveStepInstance s (engineEscalate s target t0))
      (escalateHistoryDoc t0)) (escalateNotifDoc target t0)).2 = s3 := by rw [hnu]
  rw [← h3]
  refine ⟨?_, (framePres_notify _ _).1,
    (framePres_notify _ _).2.1, (framePres_notify _ _).2.2.1⟩
  rw [notifyUser_steps]
  rfl

theorem escalateIter_ok {s : EngineState} {target : User} {t0 : StepInstance}
    {res : Except JsError Unit} {s3 : EngineState}
    (hb : s.notificationSinkFails = false)
    (hnu : notifyUser (appendHistory (saveStepInstance s (engineEscalate s target t0))
      (escalateHistoryDoc t0)) (escalateNotifDoc target t0) = (res, s3)) :
    res = .ok () := by
  rw [notifyUser_ok _ _ (show (appendHistory (saveStepInstance s
    (engineEscalate s target t0)) (escalateHistoryDoc t0)).notificationSinkFails = false
    from hb)] at hnu
  injection hnu with h1 h2
  exact h1.symm

theorem escalateLoop_entry_write (ts : List StepInstance) :
    ∀ s (target : User) (l : List User) (t : StepInstance),
    s.notificationSinkFails = false →
    escalationTargets s = target :: l →
    (ts.map (fun x => x.id)).Nodup →
    (∀ t' ∈ ts, findStepInstance s t'.id = some t') →
    t ∈ ts →
    findStepInstance (escalateLoop s ts) t.id = some (engineEscalate s target t) := by
  induction ts with
  | nil =>
    intro s target l t _ _ _ _ ht
    simp at ht
  | cons t0 rest ih =>
    intro s target l t hb htg hnd hmem ht
    rw [escalateLoop_cons_targets htg]
    cases hnu : notifyUser (appendHistory (saveStepInstance s (engineEscalate s target t0))
        (escalateHistoryDoc t0)) (escalateNotifDoc target t0) with
    | mk res s3 =>
      obtain ⟨hsteps3, husers3, hnow3, hsink3⟩ := escalateIter_state hnu
      have hres : res = .ok () := escalateIter_ok hb hnu
      subst hres
      have hndrest : (rest.map (fun x => x.id)).Nodup := by
        rw [List.map_cons, List.nodup_cons] at hnd
        exact hnd.2
      have hid0 : t0.id ∉ rest.map (fun x => x.id) := by
        rw [List.map_cons, List.nodup_cons] at hnd
        exact hnd.1
      rcases List.mem_cons.1 ht with rfl | htr
      · -- the written task itself: saved, then untouched by the rest of the loop
        have hsave : findStepInstance s3 t.id = some (engineEscalate s target t) := by
          unfold findStepInstance
          rw [hsteps3]
          exact entryBy_replaceBy_self (hmem t (List.mem_cons_self t rest))
        rw [escalateLoop_entry_skip rest s3 t.id
          (fun t' ht' e => hid0 (by rw [← e]; exact List.mem_map_of_mem _ ht'))]
        exact hsave
      · -- a later task: recurse in the post-iteration state
        have hb3 : s3.notificationSinkFails = false := by rw [hsink3]; exact hb
        have htg3 : escalationTargets s3 = target :: l := by
          rw [escalationTargets_congr husers3]
          exact htg
        have hmem3 : ∀ t' ∈ rest, findStepInstance s3 t'.id = some t' := by
          intro t' ht'
          unfold findStepInstance
          rw [hsteps3]
          rw [entryBy_replaceBy_ne (fun e => hid0 (by
            have e2 : t'.id = t0.id := e
            rw [← e2]
            exact List.mem_map_of_mem _ ht'))]
          exact hmem t' (List.mem_cons_of_mem _ ht')
        rw [ih s3 target l t hb3 htg3 hndrest hmem3 htr]
        rw [engineEscalate_congr hnow3]

/-- Top-level: `escalateOverdueTasks` escalates every overdue unescalated step
to level 1 (given a target). -/
theorem escalateOverdueTasks_write {s : EngineState} {target : User} {l : List User}
    {t : StepInstance}
    (hnd : (s.stepInstances.map (fun x => x.id)).Nodup)
    (hb : s.notificationSinkFails = false)
    (htg : escalationTargets s = target :: l)
    (ht : t ∈ s.stepInstances) (hp : overduePred s.now t = true) :
    findStepInstance (escalateOverdueTasks s) t.id = some (engineEscalate s target t) := by
  unfold escalateOverdueTasks
  apply escalateLoop_entry_write _ s target l t hb htg
  · have hsub : List.Sublist
        ((s.stepInstances.filter (overduePred s.now)).map (fun x => x.id))
        (s.stepInstances.map (fun x => x.id)) :=
      List.Sublist.map _ (List.filter_sublist _)
    exact List.Nodup.sublist hsub hnd
  · intro t' ht'
    exact entryBy_of_mem_nodup hnd (List.mem_of_mem_filter ht')
  · exact List.mem_filter.2 ⟨ht, hp⟩

/-- Top-level: `escalateOverdueTasks` never touches a step that does not match
the overdue query. -/
theorem escalateOverdueTasks_skip {s : EngineState} {t : StepInstance}
    (hnd : (s.stepInstances.map (fun x => x.id)).Nodup)
    (ht : t ∈ s.stepInstances) (hp : overduePred s.now t = false) :
    findStepInstance (escalateOverdueTasks s) t.id = some t := by
  unfold escalateOverdueTasks
  rw [escalateLoop_entry_skip]
  · exact entryBy_of_mem_nodup hnd ht
  · intro t' ht' e
    have ht'm := List.mem_of_mem_filter ht'
    have hpt' := List.of_mem_filter ht'
    have : t' = t := eq_of_mem_mem_nodup hnd ht'm ht e
    rw [this] at hpt'
    rw [hpt'] at hp
    exact Bool.noConfusion hp

/-- Per-id effect of the engine escalation loop: an entry is either untouched
or the level-1 escalation of a task in the work list. -/
theorem escalateLoop_entry_cases (ts : List StepInstance) :
    ∀ s i, findStepInstance (escalateLoop s ts) i = findStepInstance s i ∨
      ∃ t ∈ ts, t.id = i ∧ ∃ u, findStepInstance (escalateLoop s ts) i =
        some (engineEscalate s u t) := by
  induction ts with
  | nil => intro s i; exact Or.inl rfl
  | cons t0 rest ih =>
    intro s i
    cases htg : escalationTargets s with
    | nil =>
      rw [escalateLoop_cons_noTargets htg]
      rcases ih s i with h | ⟨t, ht, hid, u, hu⟩
      · exact Or.inl h
      · exact Or.inr ⟨t, List.mem_cons_of_mem _ ht, hid, u, hu⟩
    | cons target l =>
      rw [escalateLoop_cons_targets htg]
      cases hnu : notifyUser (appendHistory (saveStepInstance s (engineEscalate s target t0))
          (escalateHistoryDoc t0)) (escalateNotifDoc target t0) with
      | mk res s3 =>
        obtain ⟨hsteps3, husers3, hnow3, hsink3⟩ := escalateIter_state hnu
        have hbase : findStepInstance s3 i = findStepInstance s i ∨
            (t0.id = i ∧ findStepInstance s3 i = some (engineEscalate s target t0)) := by
          unfold findStepInstance
          rw [hsteps3]
          by_cases hi : i = t0.id
          · subst hi
            cases hentry : entryBy (fun q : StepInstance => q.id) s.stepInstances t0.id with
            | some b =>
              exact Or.inr ⟨rfl, entryBy_replaceBy_self hentry⟩
            | none =>
              rw [@replaceBy_of_entryBy_none _ _ s.stepInstances
                (engineEscalate s target t0) hentry]
              exact Or.inl hentry
          · exact Or.inl (entryBy_replaceBy_ne (fun e => hi e))
        cases res with
        | error e =>
          rcases hbase with h | ⟨hid, hw⟩
          · exact Or.inl h
          · exact Or.inr ⟨t0, List.mem_cons_self t0 rest, hid, target, hw⟩
        | ok u =>
          rcases ih s3 i with h | ⟨t, ht, hid, u', hu⟩
          · rw [h]
            rcases hbase with h' | ⟨hid, hw⟩
            · exact Or.inl h'
            · exact Or.inr ⟨t0, List.mem_cons_self t0 rest, hid, target, hw⟩
          · exact Or.inr ⟨t, List.mem_cons_of_mem _ ht, hid, u',
              hu.trans (congrArg some (engineEscalate_congr hnow3 u' t))⟩

/-! ## Loop lemmas: `checkOverdueLoop` (scheduler overdue check) -/

theorem checkOverdueNotify_steps (s : EngineState) (t : StepInstance) :
    (checkOverdueNotify s t).stepInstances = s.stepInstances := by
  unfold checkOverdueNotify
  cases t.assignedTo with
  | some uid => exact notifyUser_steps _ _
  | none => rfl

theorem framePres_checkNotify (s : EngineState) (t : StepInstance) :
    FramePres s (checkOverdueNotify s t) := by
  unfold checkOverdueNotify
  cases t.assignedTo with
  | some uid => exact framePres_notify _ _
  | none => exact framePres_refl s

theorem checkOverdueLoop_cons (s : EngineState) (t0 : StepInstance)
    (rest : List StepInstance) :
    checkOverdueLoop s (t0 :: rest) = checkOverdueLoop
      (checkOverdueNotify (saveStepInstance s { t0 with escalated := true }) t0) rest := rfl

theorem checkOverdueLoop_frame (ts : List StepInstance) :
    ∀ s, FramePres s (checkOverdueLoop s ts) := by
  induction ts with
  | nil => intro s; exact framePres_refl s
  | cons t0 rest ih =>
    intro s
    rw [checkOverdueLoop_cons]
    exact framePres_trans
      (framePres_trans (framePres_save s _) (framePres_checkNotify _ _))
      (ih _)

theorem checkOverdueLoop_entry_cases (ts : List StepInstance) :
    ∀ s i, findStepInstance (checkOverdueLoop s ts) i = findStepInstance s i ∨
      ∃ t ∈ ts, t.id = i ∧ findStepInstance (checkOverdueLoop s ts) i =
        some { t with escalated := true } := by
  induction ts with
  | nil => intro s i; exact Or.inl rfl
  | cons t0 rest ih =>
    intro s i
    rw [checkOverdueLoop_cons]
    have hsteps : (checkOverdueNotify (saveStepInstance s { t0 with escalated := true })
        t0).stepInstances =
        replaceBy (fun q => q.id) s.stepInstances { t0 with escalated := true } := by
      rw [checkOverdueNotify_steps]
      rfl
    have hbase : findStepInstance
        (checkOverdueNotify (saveStepInstance s { t0 with escalated := true }) t0) i =
          findStepInstance s i ∨
        (t0.id = i ∧ findStepInstance
          (checkOverdueNotify (saveStepInstance s { t0 with escalated := true }) t0) i =
          some { t0 with escalated := true }) := by
      unfold findStepInstance
      rw [hsteps]
      by_cases hi : i = t0.id
      · subst hi
        cases hentry : entryBy (fun q : StepInstance => q.id) s.stepInstances t0.id with
        | some b => exact Or.inr ⟨rfl, entryBy_replaceBy_self hentry⟩
        | none =>
          rw [@replaceBy_of_entryBy_none _ _ s.stepInstances
            { t0 with escalated := true } hentry]
          exact Or.inl hentry
      · exact Or.inl (entryBy_replaceBy_ne (fun e => hi e))
    rcases ih (checkOverdueNotify (saveStepInstance s { t0 with escalated := true }) t0) i
        with h | ⟨t, ht, hid, hu⟩
    · rw [h]
      rcases hbase with h' | ⟨hid, hw⟩
      · exact Or.inl h'
      · exact Or.inr ⟨t0, List.mem_cons_self t0 rest, hid, hw⟩
    · exact Or.inr ⟨t, List.mem_cons_of_mem _ ht, hid, hu⟩

/-! ## Loop lemmas: `cascadeLoop` (scheduler `processTaskEscalations`) -/

theorem notifyUser_history (s : EngineState) (n : NotificationDoc) :
    ((notifyUser s n).2).history = s.history := by
  unfold notifyUser
  by_cases hb : s.notificationSinkFails = true <;> simp [hb]

theorem notifyUser_notif_mono {s : EngineState} {n x : NotificationDoc}
    (h : x ∈ s.notifications) : x ∈ ((notifyUser s n).2).notifications := by
  unfold notifyUser
  by_cases hb : s.notificationSinkFails = true
  · simpa [hb] using h
  · simp only [hb, Bool.false_eq_true, if_false]
    exact List.mem_append.2 (Or.inl h)

theorem notifyCascadeTargets_cons (s : EngineState) (u : User) (rest : List User)
    (t : StepInstance) :
    notifyCascadeTargets s (u :: rest) t =
      match notifyUser s (cascadeNotif u t) with
      | (.ok _, s') => notifyCascadeTargets s' rest t
      | (.error _, s') => s' := rfl

theorem notifyCascadeTargets_steps (targets : List User) (t : StepInstance) :
    ∀ s, (notifyCascadeTargets s targets t).stepInstances = s.stepInstances := by
  induction targets with
  | nil => intro s; rfl
  | cons u rest ih =>
    intro s
    rw [notifyCascadeTargets_cons]
    cases hnu : notifyUser s (cascadeNotif u t) with
    | mk res s' =>
      have h2 : (notifyUser s (cascadeNotif u t)).2 = s' := by rw [hnu]
      have hst : s'.stepInstances = s.stepInstances := by
        rw [← h2]
        exact notifyUser_steps _ _
      cases res with
      | ok v => rw [ih s']; exact hst
      | error e => exact hst

theorem notifyCascadeTargets_history (targets : List User) (t : StepInstance) :
    ∀ s, (notifyCascadeTargets s targets t).history = s.history := by
  induction targets with
  | nil => intro s; rfl
  | cons u rest ih =>
    intro s
    rw [notifyCascadeTargets_cons]
    cases hnu : notifyUser s (cascadeNotif u t) with
    | mk res s' =>
      have h2 : (notifyUser s (cascadeNotif u t)).2 = s' := by rw [hnu]
      have hst : s'.history = s.history := by
        rw [← h2]
        exact notifyUser_history _ _
      cases res with
      | ok v => rw [ih s']; exact hst
      | error e => exact hst

theorem notifyCascadeTargets_framePres (targets : List User) (t : StepInstance) :
    ∀ s, FramePres s (notifyCascadeTargets s targets t) := by
  induction targets with
  | nil => intro s; exact framePres_refl s
  | cons u rest ih =>
    intro s
    rw [notifyCascadeTargets_cons]
    cases hnu : notifyUser s (cascadeNotif u t) with
    | mk res s' =>
      have h2 : (notifyUser s (cascadeNotif u t)).2 = s' := by rw [hnu]
      have hf : FramePres s s' := by
        rw [← h2]
        exact framePres_notify _ _
      cases res with
      | ok v => exact framePres_trans hf (ih s')
      | error e => exact hf

theorem notifyCascadeTargets_ok_eq (targets : List User) (t : StepInstance) :
    ∀ s, s.notificationSinkFails = false →
    notifyCascadeTargets s targets t =
      { s with notifications :=
          s.notifications ++ targets.map (fun u => cascadeNotif u t) } := by
  induction targets with
  | nil =>
    intro s hb
    show s = _
    simp
  | cons u rest ih =>
    intro s hb
    rw [notifyCascadeTargets_cons, notifyUser_ok _ _ hb]
    have hrec := ih { s with notifications := s.notifications ++ [cascadeNotif u t] } hb
    exact hrec.trans (by simp)

theorem notifyCascadeTargets_notif_mono (targets : List User) (t : StepInstance) :
    ∀ s x, x ∈ s.notifications → x ∈ (notifyCascadeTargets s targets t).notifications := by
  induction targets with
  | nil => intro s x h; exact h
  | cons u rest ih =>
    intro s x h
    rw [notifyCascadeTargets_cons]
    cases hnu : notifyUser s (cascadeNotif u t) with
    | mk res s' =>
      have h2 : (notifyUser s (cascadeNotif u t)).2 = s' := by rw [hnu]
      have hm : x ∈ s'.notifications := by
        rw [← h2]
        exact notifyUser_notif_mono h
      cases res with
      | ok v => exact ih s' x hm
      | error e => exact hm

theorem cascadeLoop_cons (s : EngineState) (t0 : StepInstance)
    (rest : List StepInstance) :
    cascadeLoop s (t0 :: rest) = cascadeLoop
      (cascadeNotifyPhase
        (saveStepInstance s { t0 with escalationLevel := t0.escalationLevel + 1 }) t0)
      rest := rfl

theorem cascadeNotifyPhase_steps (s : EngineState) (t : StepInstance) :
    (cascadeNotifyPhase s t).stepInstances = s.stepInstances :=
  notifyCascadeTargets_steps _ _ _

theorem cascadeNotifyPhase_framePres (s : EngineState) (t : StepInstance) :
    FramePres s (cascadeNotifyPhase s t) :=
  notifyCascadeTargets_framePres _ _ _

theorem cascadeLoop_frame (ts : List StepInstance) :
    ∀ s, FramePres s (cascadeLoop s ts) := by
  induction ts with
  | nil => intro s; exact framePres_refl s
  | cons t0 rest ih =>
    intro s
    rw [cascadeLoop_cons]
    exact framePres_trans
      (framePres_trans (framePres_save s _) (cascadeNotifyPhase_framePres _ _))
      (ih _)

theorem cascadeLoop_history (ts : List StepInstance) :
    ∀ s, (cascadeLoop s ts).history = s.history := by
  induction ts with
  | nil => intro s; rfl
  | cons t0 rest ih =>
    intro s
    rw [cascadeLoop_cons]
    rw [ih]
    exact notifyCascadeTargets_history _ _ _

theorem cascadeLoop_entry_cases (ts : List StepInstance) :
    ∀ s i, findStepInstance (cascadeLoop s ts) i = findStepInstance s i ∨
      ∃ t ∈ ts, t.id = i ∧ findStepInstance (cascadeLoop s ts) i =
        some { t with escalationLevel := t.escalationLevel + 1 } := by
  induction ts with
  | nil => intro s i; exact Or.inl rfl
  | cons t0 rest ih =>
    intro s i
    rw [cascadeLoop_cons]
    have hsteps : (cascadeNotifyPhase
        (saveStepInstance s { t0 with escalationLevel := t0.escalationLevel + 1 })
        t0).stepInstances =
        replaceBy (fun q => q.id) s.stepInstances
          { t0 with escalationLevel := t0.escalationLevel + 1 } := by
      rw [cascadeNotifyPhase_steps]
      rfl
    have hbase : findStepInstance (cascadeNotifyPhase
        (saveStepInstance s { t0 with escalationLevel := t0.escalationLevel + 1 }) t0) i =
          findStepInstance s i ∨
        (t0.id = i ∧ findStepInstance (cascadeNotifyPhase
          (saveStepInstance s { t0 with escalationLevel := t0.escalationLevel + 1 }) t0) i =
          some { t0 with escalationLevel := t0.escalationLevel + 1 }) := by
      unfold findStepInstance
      rw [hsteps]
      by_cases hi : i = t0.id
      · subst hi
        cases hentry : entryBy (fun q : StepInstance => q.id) s.stepInstances t0.id with
        | some b => exact Or.inr ⟨rfl, entryBy_replaceBy_self hentry⟩
        | none =>
          rw [@replaceBy_of_entryBy_none _ _ s.stepInstances
            { t0 with escalationLevel := t0.escalationLevel + 1 } hentry]
          exact Or.inl hentry
      · exact Or.inl (entryBy_replaceBy_ne (fun e => hi e))
    rcases ih (cascadeNotifyPhase
        (saveStepInstance s { t0 with escalationLevel := t0.escalationLevel + 1 }) t0) i
        with h | ⟨t, ht, hid, hu⟩
    · rw [h]
      rcases hbase with h' | ⟨hid, hw⟩
      · exact Or.inl h'
      · exact Or.inr ⟨t0, List.mem_cons_self t0 rest, hid, hw⟩
    · exact Or.inr ⟨t, List.mem_cons_of_mem _ ht, hid, hu⟩

theorem cascadeLoop_entry_skip (ts : List StepInstance) :
    ∀ s i, (∀ t ∈ ts, t.id ≠ i) →
    findStepInstance (cascadeLoop s ts) i = findStepInstance s i := by
  induction ts with
  | nil => intro s i h; rfl
  | cons t0 rest ih =>
    intro s i h
    rw [cascadeLoop_cons]
    rw [ih _ i (fun t' ht' => h t' (List.mem_cons_of_mem _ ht'))]
    unfold findStepInstance
    rw [cascadeNotifyPhase_steps]
    show entryBy _ (replaceBy (fun q => q.id) s.stepInstances
      { t0 with escalationLevel := t0.escalationLevel + 1 }) i = _
    exact entryBy_replaceBy_ne (fun e => h t0 (List.mem_cons_self t0 rest) e.symm)

theorem cascadeLoop_entry_write (ts : List StepInstance) :
    ∀ s (t : StepInstance),
    (ts.map (fun x => x.id)).Nodup →
    (∀ t' ∈ ts, findStepInstance s t'.id = some t') →
    t ∈ ts →
    findStepInstance (cascadeLoop s ts) t.id =
      some { t with escalationLevel := t.escalationLevel + 1 } := by
  induction ts with
  | nil => intro s t _ _ ht; simp at ht
  | cons t0 rest ih =>
    intro s t hnd hmem ht
    rw [cascadeLoop_cons]
    have hndrest : (rest.map (fun x => x.id)).Nodup := by
      rw [List.map_cons, List.nodup_cons] at hnd
      exact hnd.2
    have hid0 : t0.id ∉ rest.map (fun x => x.id) := by
      rw [List.map_cons, List.nodup_cons] at hnd
      exact hnd.1
    have hsteps : (cascadeNotifyPhase
        (saveStepInstance s { t0 with escalationLevel := t0.escalationLevel + 1 })
        t0).stepInstances =
        replaceBy (fun q => q.id) s.stepInstances
          { t0 with escalationLevel := t0.escalationLevel + 1 } := by
      rw [cascadeNotifyPhase_steps]
      rfl
    rcases List.mem_cons.1 ht with rfl | htr
    · rw [cascadeLoop_entry_skip rest _ t.id
        (fun t' ht' e => hid0 (by rw [← e]; exact List.mem_map_of_mem _ ht'))]
      unfold findStepInstance
      rw [hsteps]
      exact entryBy_replaceBy_self (hmem t (List.mem_cons_self t rest))
    · apply ih _ t hndrest _ htr
      intro t' ht'
      unfold findStepInstance
      rw [hsteps]
      rw [entryBy_replaceBy_ne (fun e => hid0 (by
        have e2 : t'.id = t0.id := e
        rw [← e2]
        exact List.mem_map_of_mem _ ht'))]
      exact hmem t' (List.mem_cons_of_mem _ ht')

theorem cascadeLoop_notif_mono (ts : List StepInstance) :
    ∀ s x, x ∈ s.notifications → x ∈ (cascadeLoop s ts).notifications := by
  induction ts with
  | nil => intro s x h; exact h
  | cons t0 rest ih =>
    intro s x h
    rw [cascadeLoop_cons]
    apply ih
    exact notifyCascadeTargets_notif_mono _ _ _ _ h

theorem cascadeLoop_notif_mem (ts : List StepInstance) :
    ∀ s, s.notificationSinkFails = false →
    ∀ t ∈ ts, ∀ u ∈ cascadeTargets s,
      cascadeNotif u t ∈ (cascadeLoop s ts).notifications := by
  induction ts with
  | nil => intro s _ t ht; simp at ht
  | cons t0 rest ih =>
    intro s hb t ht u hu
    rw [cascadeLoop_cons]
    have hb1 : (saveStepInstance s
        { t0 with escalationLevel := t0.escalationLevel + 1 }).notificationSinkFails =
        false := hb
    have htg1 : cascadeTargets (saveStepInstance s
        { t0 with escalationLevel := t0.escalationLevel + 1 }) = cascadeTargets s :=
      cascadeTargets_congr rfl
    have hphase : cascadeNotifyPhase
        (saveStepInstance s { t0 with escalationLevel := t0.escalationLevel + 1 }) t0 =
        { saveStepInstance s { t0 with escalationLevel := t0.escalationLevel + 1 } with
          notifications := s.notifications ++
            (cascadeTargets s).map (fun u => cascadeNotif u t0) } := by
      unfold cascadeNotifyPhase
      rw [notifyCascadeTargets_ok_eq _ _ _ hb1]
      rw [htg1]
      rfl
    rcases List.mem_cons.1 ht with rfl | htr
    · apply cascadeLoop_notif_mono
      rw [hphase]
      exact List.mem_append.2 (Or.inr (List.mem_map_of_mem _ hu))
    · have hb2 : (cascadeNotifyPhase (saveStepInstance s
          { t0 with escalationLevel := t0.escalationLevel + 1 })
          t0).notificationSinkFails = false := by
        rw [hphase]
        exact hb
      have hu2 : u ∈ cascadeTargets (cascadeNotifyPhase (saveStepInstance s
          { t0 with escalationLevel := t0.escalationLevel + 1 }) t0) := by
        rw [cascadeTargets_congr ((cascadeNotifyPhase_framePres _ _).1)]
        rw [htg1]
        exact hu
      exact ih _ hb2 t htr u hu2

/-! ## Top-level characterizations of the escalation operations -/

theorem escalateOverdueTasks_frame (s : EngineState) :
    FramePres s (escalateOverdueTasks s) :=
  escalateLoop_frame _ s

theorem checkOverdueTasks_frame (s : EngineState) :
    FramePres s (checkOverdueTasks s) :=
  checkOverdueLoop_frame _ s

theorem processTaskEscalations_frame (s : EngineState) :
    FramePres s (processTaskEscalations s) :=
  cascadeLoop_frame _ s

theorem escalateOverdueTasks_cases (s : EngineState) (i : Nat) :
    findStepInstance (escalateOverdueTasks s) i = findStepInstance s i ∨
      ∃ t ∈ s.stepInstances, overduePred s.now t = true ∧ t.id = i ∧
        ∃ u, findStepInstance (escalateOverdueTasks s) i = some (engineEscalate s u t) := by
  rcases escalateLoop_entry_cases (s.stepInstances.filter (overduePred s.now)) s i
    with h | ⟨t, ht, hid, u, hu⟩
  · exact Or.inl h
  · exact Or.inr ⟨t, List.mem_of_mem_filter ht, List.of_mem_filter ht, hid, u, hu⟩

theorem checkOverdueTasks_cases (s : EngineState) (i : Nat) :
    findStepInstance (checkOverdueTasks s) i = findStepInstance s i ∨
      ∃ t ∈ s.stepInstances, overdueCheckPred s.now t = true ∧ t.id = i ∧
        findStepInstance (checkOverdueTasks s) i = some { t with escalated := true } := by
  rcases checkOverdueLoop_entry_cases (s.stepInstances.filter (overdueCheckPred s.now)) s i
    with h | ⟨t, ht, hid, hu⟩
  · exact Or.inl h
  · exact Or.inr ⟨t, List.mem_of_mem_filter ht, List.of_mem_filter ht, hid, hu⟩

theorem processTaskEscalations_cases (s : EngineState) (i : Nat) :
    findStepInstance (processTaskEscalations s) i = findStepInstance s i ∨
      ∃ t ∈ s.stepInstances, cascadePred s.now t = true ∧ t.id = i ∧
        findStepInstance (processTaskEscalations s) i =
          some { t with escalationLevel := t.escalationLevel + 1 } := by
  rcases cascadeLoop_entry_cases (s.stepInstances.filter (cascadePred s.now)) s i
    with h | ⟨t, ht, hid, hu⟩
  · exact Or.inl h
  · exact Or.inr ⟨t, List.mem_of_mem_filter ht, List.of_mem_filter ht, hid, hu⟩

theorem processTaskEscalations_write {s : EngineState} {t : StepInstance}
    (hnd : (s.stepInstances.map (fun x => x.id)).Nodup)
    (ht : t ∈ s.stepInstances) (hp : cascadePred s.now t = true) :
    findStepInstance (processTaskEscalations s) t.id =
      some { t with escalationLevel := t.escalationLevel + 1 } := by
  apply cascadeLoop_entry_write _ s t
  · have hsub : List.Sublist
        ((s.stepInstances.filter (cascadePred s.now)).map (fun x => x.id))
        (s.stepInstances.map (fun x => x.id)) :=
      List.Sublist.map _ (List.filter_sublist _)
    exact List.Nodup.sublist hsub hnd
  · intro t' ht'
    exact entryBy_of_mem_nodup hnd (List.mem_of_mem_filter ht')
  · exact List.mem_filter.2 ⟨ht, hp⟩

theorem processTaskEscalations_skip {s : EngineState} {t : StepInstance}
    (hnd : (s.stepInstances.map (fun x => x.id)).Nodup)
    (ht : t ∈ s.stepInstances) (hp : cascadePred s.now t = false) :
    findStepInstance (processTaskEscalations s) t.id = some t := by
  unfold processTaskEscalations
  rw [cascadeLoop_entry_skip]
  · exact entryBy_of_mem_nodup hnd ht
  · intro t' ht' e
    have ht'm := List.mem_of_mem_filter ht'
    have hpt' := List.of_mem_filter ht'
    have heq : t' = t := eq_of_mem_mem_nodup hnd ht'm ht e
    rw [heq] at hpt'
    rw [hpt'] at hp
    exact Bool.noConfusion hp

theorem processTaskEscalations_history (s : EngineState) :
    (processTaskEscalations s).history = s.history :=
  cascadeLoop_history _ s

theorem processTaskEscalations_notif {s : EngineState} {t : StepInstance}
    (hb : s.notificationSinkFails = false)
    (ht : t ∈ s.stepInstances) (hp : cascadePred s.now t = true) :
    ∀ u ∈ cascadeTargets s,
      cascadeNotif u t ∈ (processTaskEscalations s).notifications :=
  fun u hu => cascadeLoop_notif_mem _ s hb t (List.mem_filter.2 ⟨ht, hp⟩) u hu

/-! ## The escalation-level invariant (claim C5) -/

theorem overduePred_fields {now : Int} {t : StepInstance}
    (h : overduePred now t = true) : t.escalated = false := by
  unfold overduePred at h
  simp only [Bool.and_eq_true, beq_iff_eq] at h
  exact h.2

theorem cascadePred_fields {now : Int} {t : StepInstance}
    (h : cascadePred now t = true) :
    t.escalated = true ∧ t.escalationLevel < 3 := by
  unfold cascadePred at h
  simp only [Bool.and_eq_true, decide_eq_true_eq] at h
  exact ⟨h.1.2, h.2⟩

theorem escStep_nodup {s s' : EngineState} (h : EscStep s s')
    (hnd : (s.stepInstances.map (fun t => t.id)).Nodup) :
    (s'.stepInstances.map (fun t => t.id)).Nodup := by
  cases h with
  | engine => rw [(escalateOverdueTasks_frame s).2.2.2.2.2]; exact hnd
  | overdue => rw [(checkOverdueTasks_frame s).2.2.2.2.2]; exact hnd
  | cascade => rw [(processTaskEscalations_frame s).2.2.2.2.2]; exact hnd
  | tick t => exact hnd

theorem escStep_preserves_safe {s s' : EngineState} (hs : SafeEscState s)
    (h : EscStep s s') : SafeEscState s' := by
  obtain ⟨hnd, hsafe⟩ := hs
  refine ⟨escStep_nodup h hnd, ?_⟩
  intro si' hsi'
  have hnd' := escStep_nodup h hnd
  have hentry' : findStepInstance s' si'.id = some si' :=
    entryBy_of_mem_nodup hnd' hsi'
  cases h with
  | tick t =>
    exact hsafe si' hsi'
  | engine =>
    rcases escalateOverdueTasks_cases s si'.id with hsame | ⟨t, htm, hpt, htid, u, hu⟩
    · rw [hsame] at hentry'
      exact hsafe si' (entryBy_some hentry').1
    · rw [hu] at hentry'
      have : engineEscalate s u t = si' := Option.some.inj hentry'
      rw [← this]
      exact ⟨by simp [engineEscalate], by simp [engineEscalate]⟩
  | overdue =>
    rcases checkOverdueTasks_cases s si'.id with hsame | ⟨t, htm, hpt, htid, hu⟩
    · rw [hsame] at hentry'
      exact hsafe si' (entryBy_some hentry').1
    · rw [hu] at hentry'
      have heq : ({ t with escalated := true } : StepInstance) = si' :=
        Option.some.inj hentry'
      rw [← heq]
      exact ⟨(hsafe t htm).1, by simp⟩
  | cascade =>
    rcases processTaskEscalations_cases s si'.id with hsame | ⟨t, htm, hpt, htid, hu⟩
    · rw [hsame] at hentry'
      exact hsafe si' (entryBy_some hentry').1
    · rw [hu] at hentry'
      have heq : ({ t with escalationLevel := t.escalationLevel + 1 } : StepInstance) = si' :=
        Option.some.inj hentry'
      rw [← heq]
      refine ⟨?_, fun hf => ?_⟩
      · exact (cascadePred_fields hpt).2
      · rw [(cascadePred_fields hpt).1] at hf
        exact Bool.noConfusion hf

theorem escStep_mono {s s' : EngineState} (hs : SafeEscState s) (h : EscStep s s') :
    ∀ si ∈ s.stepInstances, ∀ si' ∈ s'.stepInstances, si'.id = si.id →
      si.escalationLevel ≤ si'.escalationLevel ∧ si'.escalationLevel ≤ 3 := by
  obtain ⟨hnd, hsafe⟩ := hs
  intro si hsi si' hsi' hid
  have hentry_s : findStepInstance s si.id = some si := entryBy_of_mem_nodup hnd hsi
  have hnd' := escStep_nodup h hnd
  have hentry' : findStepInstance s' si.id = some si' := by
    rw [← hid]
    exact entryBy_of_mem_nodup hnd' hsi'
  cases h with
  | tick t =>
    have : si' = si := eq_of_mem_mem_nodup hnd hsi' hsi hid
    rw [this]
    exact ⟨le_refl _, (hsafe si hsi).1⟩
  | engine =>
    rcases escalateOverdueTasks_cases s si.id with hsame | ⟨t, htm, hpt, htid, u, hu⟩
    · rw [hsame, hentry_s] at hentry'
      obtain rfl := Option.some.inj hentry'
      exact ⟨le_refl _, (hsafe si hsi).1⟩
    · have htsi : t = si := by
        have h1 : findStepInstance s t.id = some t := entryBy_of_mem_nodup hnd htm
        rw [htid, hentry_s] at h1
        exact (Option.some.inj h1).symm
      rw [hu] at hentry'
      rw [← Option.some.inj hentry']
      subst htsi
      have hzero : t.escalationLevel = 0 :=
        ((hsafe t htm).2) (overduePred_fields hpt)
      rw [hzero]
      exact ⟨by simp [engineEscalate], by simp [engineEscalate]⟩
  | overdue =>
    rcases checkOverdueTasks_cases s si.id with hsame | ⟨t, htm, hpt, htid, hu⟩
    · rw [hsame, hentry_s] at hentry'
      obtain rfl := Option.some.inj hentry'
      exact ⟨le_refl _, (hsafe si hsi).1⟩
    · have htsi : t = si := by
        have h1 : findStepInstance s t.id = some t := entryBy_of_mem_nodup hnd htm
        rw [htid, hentry_s] at h1
        exact (Option.some.inj h1).symm
      rw [hu] at hentry'
      rw [← Option.some.inj hentry']
      subst htsi
      exact ⟨le_refl _, (hsafe t htm).1⟩
  | cascade =>
    rcases processTaskEscalations_cases s si.id with hsame | ⟨t, htm, hpt, htid, hu⟩
    · rw [hsame, hentry_s] at hentry'
      obtain rfl := Option.some.inj hentry'
      exact ⟨le_refl _, (hsafe si hsi).1⟩
    · have htsi : t = si := by
        have h1 : findStepInstance s t.id = some t := entryBy_of_mem_nodup hnd htm
        rw [htid, hentry_s] at h1
        exact (Option.some.inj h1).symm
      rw [hu] at hentry'
      rw [← Option.some.inj hentry']
      subst htsi
      exact ⟨Nat.le_succ _, (cascadePred_fields hpt).2⟩

theorem safe_of_init {s : EngineState} (h : InitEscState s) : SafeEscState s := by
  obtain ⟨hnd, hinit⟩ := h
  refine ⟨hnd, fun t ht => ?_⟩
  obtain ⟨-, hlvl⟩ := hinit t ht
  rw [hlvl]
  exact ⟨by decide, fun _ => rfl⟩

theorem safe_of_reach {s0 s : EngineState} (h0 : InitEscState s0)
    (hr : EscReach s0 s) : SafeEscState s := by
  induction hr with
  | refl => exact safe_of_init h0
  | tail hab hbc ih => exact escStep_preserves_safe ih hbc

/-! ## Claim theorems: escalation -/

/-- C5: in every state reachable from an initial state under the system's
escalation operations (engine `escalateOverdueTasks`, scheduler overdue check
and cascade, clock ticks), every step instance's `escalationLevel` is at most
3, and along any further escalation operation the level of a step never
decreases (and stays at most 3). -/
theorem claim5_escalation_monotone_capped :
    ∀ s0 s : EngineState, InitEscState s0 → EscReach s0 s →
      (∀ si ∈ s.stepInstances, si.escalationLevel ≤ 3) ∧
      (∀ s', EscStep s s' → ∀ si ∈ s.stepInstances, ∀ si' ∈ s'.stepInstances,
        si'.id = si.id →
        si.escalationLevel ≤ si'.escalationLevel ∧ si'.escalationLevel ≤ 3) := by
  intro s0 s h0 hr
  have hsafe := safe_of_reach h0 hr
  exact ⟨fun si hsi => (hsafe.2 si hsi).1, fun s' hstep => escStep_mono hsafe hstep⟩

/-- Witness for C5 at a concrete initial state (level of its only step is
within the cap). -/
theorem claim5_escalation_monotone_capped_witness :
    ({ exStepInProgress with status := "pending", dueDate := some 50 }
      : StepInstance).escalationLevel ≤ 3 :=
  (claim5_escalation_monotone_capped exStateOverdue exStateOverdue (by decide)
    Relation.ReflTransGen.refl).1 _ (by decide)

/-- C6: on an overdue, unescalated pending/in-progress step, with an active
manager/admin present and the sink healthy, `escalateOverdueTasks` escalates
exactly once — the first run writes `escalated = true`, `escalationLevel = 1`;
a second run leaves every already-escalated step untouched; after a manual
reset of the `escalated` flag a later run escalates the step again. -/
theorem claim6_engine_escalation_idempotent :
    ∀ (s : EngineState) (si : StepInstance) (d : Int) (target : User) (l : List User),
    (s.stepInstances.map (fun x => x.id)).Nodup →
    s.notificationSinkFails = false →
    escalationTargets s = target :: l →
    si ∈ s.stepInstances →
    (si.status = "pending" ∨ si.status = "in_progress") →
    si.dueDate = some d →
    d < s.now →
    si.escalated = false →
    (findStepInstance (escalateOverdueTasks s) si.id = some (engineEscalate s target si) ∧
      (engineEscalate s target si).escalated = true ∧
      (engineEscalate s target si).escalationLevel = 1) ∧
    (∀ t ∈ (escalateOverdueTasks s).stepInstances, t.escalated = true →
      findStepInstance (escalateOverdueTasks (escalateOverdueTasks s)) t.id = some t) ∧
    (∃ si3, findStepInstance
        (escalateOverdueTasks (saveStepInstance (escalateOverdueTasks s)
          { engineEscalate s target si with escalated := false })) si.id = some si3 ∧
      si3.escalated = true ∧ si3.escalationLevel = 1) := by
  intro s si d target l hnd hb htg hsi hstatus hdue hdlt hesc
  have hp : overduePred s.now si = true := by
    unfold overduePred
    rw [hdue, hesc]
    rcases hstatus with h | h <;> simp [h, hdlt]
  have hframe1 := escalateOverdueTasks_frame s
  have hnd1 : ((escalateOverdueTasks s).stepInstances.map (fun x => x.id)).Nodup := by
    rw [hframe1.2.2.2.2.2]
    exact hnd
  refine ⟨⟨escalateOverdueTasks_write hnd hb htg hsi hp, rfl, rfl⟩, ?_, ?_⟩
  · -- second run: already-escalated steps are untouched
    intro t ht hescal
    apply escalateOverdueTasks_skip hnd1 ht
    unfold overduePred
    rw [hescal]
    simp
  · -- manual reset then a later run escalates again
    have hw1 : findStepInstance (escalateOverdueTasks s) si.id =
        some (engineEscalate s target si) :=
      escalateOverdueTasks_write hnd hb htg hsi hp
    have hnd2 : ((saveStepInstance (escalateOverdueTasks s)
        { engineEscalate s target si with escalated := false }).stepInstances.map
          (fun x => x.id)).Nodup := by
      show (replaceBy (fun q => q.id) (escalateOverdueTasks s).stepInstances
        { engineEscalate s target si with escalated := false }).map (fun x => x.id)
        |>.Nodup
      rw [replaceBy_map_key]
      exact hnd1
    have hb2 : (saveStepInstance (escalateOverdueTasks s)
        { engineEscalate s target si with escalated := false }).notificationSinkFails =
        false := by
      show (escalateOverdueTasks s).notificationSinkFails = false
      rw [hframe1.2.2.1]
      exact hb
    have htg2 : escalationTargets (saveStepInstance (escalateOverdueTasks s)
        { engineEscalate s target si with escalated := false }) = target :: l := by
      have hu : (saveStepInstance (escalateOverdueTasks s)
          { engineEscalate s target si with escalated := false }).users = s.users :=
        hframe1.1
      rw [escalationTargets_congr hu]
      exact htg
    have hentry2 : findStepInstance (saveStepInstance (escalateOverdueTasks s)
        { engineEscalate s target si with escalated := false })
        si.id = some { engineEscalate s target si with escalated := false } := by
      unfold findStepInstance saveStepInstance
      exact entryBy_replaceBy_self hw1
    have hmem2 : ({ engineEscalate s target si with escalated := false } : StepInstance) ∈
        (saveStepInstance (escalateOverdueTasks s)
          { engineEscalate s target si with escalated := false }).stepInstances :=
      (entryBy_some hentry2).1
    have hnow2 : (saveStepInstance (escalateOverdueTasks s)
        { engineEscalate s target si with escalated := false }).now = s.now := by
      show (escalateOverdueTasks s).now = s.now
      exact hframe1.2.1
    have hp2 : overduePred (saveStepInstance (escalateOverdueTasks s)
        { engineEscalate s target si with escalated := false }).now
        { engineEscalate s target si with escalated := false } = true := by
      rw [hnow2]
      unfold overduePred
      show ((si.status == "pending" || si.status == "in_progress") &&
        (match si.dueDate with
         | some d => decide (d < s.now)
         | none => false) && (false == false)) = true
      rw [hdue]
      rcases hstatus with h | h <;> simp [h, hdlt]
    refine ⟨engineEscalate (saveStepInstance (escalateOverdueTasks s)
        { engineEscalate s target si with escalated := false }) target
        { engineEscalate s target si with escalated := false },
      ?_, rfl, rfl⟩
    have hw2 := escalateOverdueTasks_write hnd2 hb2 htg2 hmem2 hp2
    exact hw2

/-- Witness for C6 at the concrete overdue state. -/
theorem claim6_engine_escalation_idempotent_witness :
    findStepInstance (escalateOverdueTasks exStateOverdue) 10 =
      some (engineEscalate exStateOverdue ⟨"mgr", "manager", true⟩
        { exStepInProgress with status := "pending", dueDate := some 50 }) :=
  ((claim6_engine_escalation_idempotent exStateOverdue
    { exStepInProgress with status := "pending", dueDate := some 50 }
    50 ⟨"mgr", "manager", true⟩ [] (by decide) (by decide) (by decide) (by decide)
    (Or.inl rfl) rfl (by decide) rfl).1).1

/-- C7 (amended): the cascade updates exactly the pending/in-progress steps
that are already escalated, more than two hours past due, and below level 3 —
incrementing each one's level by one and notifying every active manager/admin —
but it appends no history record. -/
theorem claim7_cascade_selection :
    ∀ s : EngineState,
    (s.stepInstances.map (fun x => x.id)).Nodup →
    s.notificationSinkFails = false →
    (∀ t ∈ s.stepInstances, cascadePred s.now t = true →
      findStepInstance (processTaskEscalations s) t.id =
        some { t with escalationLevel := t.escalationLevel + 1 } ∧
      ∀ u ∈ cascadeTargets s,
        cascadeNotif u t ∈ (processTaskEscalations s).notifications) ∧
    (∀ t ∈ s.stepInstances, cascadePred s.now t = false →
      findStepInstance (processTaskEscalations s) t.id = some t) ∧
    (processTaskEscalations s).history = s.history := by
  intro s hnd hb
  refine ⟨fun t ht hp => ⟨processTaskEscalations_write hnd ht hp,
      processTaskEscalations_notif hb ht hp⟩,
    fun t ht hp => processTaskEscalations_skip hnd ht hp,
    processTaskEscalations_history s⟩

/-- Counterexample for C7 as stated: at a concrete state the cascade escalates
the eligible step from level 0 to level 1 and notifies the manager, yet the
history log is unchanged — no history record of the escalation is appended. -/
theorem claim7_cascade_selection_counterexample :
    (processTaskEscalations exStateCascade).stepInstances.map
      (fun t => t.escalationLevel) = [1] ∧
    (processTaskEscalations exStateCascade).history = exStateCascade.history := by
  decide

/-- Witness for C7 (amended) at the concrete cascade-eligible state. -/
theorem claim7_cascade_selection_witness :
    (processTaskEscalations exStateCascade).history = exStateCascade.history :=
  (claim7_cascade_selection exStateCascade (by decide) (by decide)).2.2

/-! ## Engine lemmas: step creation and process completion -/

theorem notifyUser_fail {s : EngineState} (n : NotificationDoc)
    (hb : s.notificationSinkFails = true) :
    notifyUser s n = (.error .sinkError, s) := by
  unfold notifyUser
  rw [hb]
  rfl

theorem sendTaskNotification_state (s : EngineState) (si : StepInstance) :
    (sendTaskNotification s si).instances = s.instances ∧
    (sendTaskNotification s si).templates = s.templates ∧
    (sendTaskNotification s si).now = s.now ∧
    (sendTaskNotification s si).notificationSinkFails = s.notificationSinkFails ∧
    (sendTaskNotification s si).users = s.users ∧
    (sendTaskNotification s si).stepInstances = s.stepInstances ∧
    (sendTaskNotification s si).history = s.history ∧
    (sendTaskNotification s si).nextStepInstanceId = s.nextStepInstanceId := by
  unfold sendTaskNotification
  cases si.assignedTo with
  | some uid =>
    refine ⟨(framePres_notify _ _).2.2.2.1, (framePres_notify _ _).2.2.2.2.1,
      (framePres_notify _ _).2.1, (framePres_notify _ _).2.2.1,
      (framePres_notify _ _).1, notifyUser_steps _ _, notifyUser_history _ _, ?_⟩
    unfold notifyUser
    by_cases hb : s.notificationSinkFails = true <;> simp [hb]
  | none => exact ⟨rfl, rfl, rfl, rfl, rfl, rfl, rfl, rfl⟩

theorem sendTaskNotification_fail {s : EngineState} (si : StepInstance)
    (hb : s.notificationSinkFails = true) :
    sendTaskNotification s si = s := by
  unfold sendTaskNotification
  cases si.assignedTo with
  | some uid => simp [notifyUser, hb]
  | none => rfl

theorem createStepInstance_fst (s : EngineState) (pi : ProcessInstance)
    (ts : StepDefinition) (uid : String) :
    (createStepInstance s pi ts uid).1 = buildStepInstance s pi ts uid := by
  unfold createStepInstance
  by_cases h : (ts.type == "user_task" &&
      (buildStepInstance s pi ts uid).assignedTo.isSome) = true <;> simp [h]

theorem createStepInstance_state (s : EngineState) (pi : ProcessInstance)
    (ts : StepDefinition) (uid : String) :
    ((createStepInstance s pi ts uid).2).instances = s.instances ∧
    ((createStepInstance s pi ts uid).2).templates = s.templates ∧
    ((createStepInstance s pi ts uid).2).now = s.now ∧
    ((createStepInstance s pi ts uid).2).notificationSinkFails = s.notificationSinkFails ∧
    ((createStepInstance s pi ts uid).2).users = s.users ∧
    ((createStepInstance s pi ts uid).2).stepInstances =
      s.stepInstances ++ [buildStepInstance s pi ts uid] ∧
    ((createStepInstance s pi ts uid).2).history =
      s.history ++ [stepCreatedDoc pi (buildStepInstance s pi ts uid) uid] := by
  unfold createStepInstance
  by_cases h : (ts.type == "user_task" &&
      (buildStepInstance s pi ts uid).assignedTo.isSome) = true
  · simp only [h, if_true]
    obtain ⟨h1, h2, h3, h4, h5, h6, h7, h8⟩ := sendTaskNotification_state
      (appendHistory (insertStepInstance s (buildStepInstance s pi ts uid))
        (stepCreatedDoc pi (buildStepInstance s pi ts uid) uid))
      (buildStepInstance s pi ts uid)
    exact ⟨h1, h2, h3, h4, h5, h6, h7⟩
  · simp only [h, Bool.false_eq_true, if_false]
    exact ⟨rfl, rfl, rfl, rfl, rfl, rfl, rfl⟩

theorem buildStepInstance_fields (s : EngineState) (pi : ProcessInstance)
    (ts : StepDefinition) (uid : String) :
    (buildStepInstance s pi ts uid).id = s.nextStepInstanceId ∧
    (buildStepInstance s pi ts uid).processInstanceId = pi.id ∧
    (buildStepInstance s pi ts uid).stepId = ts.stepId ∧
    (buildStepInstance s pi ts uid).status =
      (if (ts.type == "service_task" || ts.autoComplete) = true
       then "completed" else "pending") := by
  unfold buildStepInstance
  cases ts.timeLimit <;> split_ifs <;> simp_all

/-! ## `createNextSteps` and `processStepCompletion` -/

theorem createNextSteps_cons_found {s : EngineState} {pi : ProcessInstance}
    {template : ProcessTemplate} {nid : String} {rest : List String} {uid : String}
    {nts : StepDefinition}
    (htf : template.steps.find? (fun st => st.stepId == nid) = some nts) :
    createNextSteps s pi template (nid :: rest) uid =
      createNextSteps (createStepInstance s pi nts uid).2
        { pi with currentSteps := pi.currentSteps ++ [nid] } template rest uid := by
  conv_lhs => unfold createNextSteps
  rw [htf]

theorem createNextSteps_cons_notfound {s : EngineState} {pi : ProcessInstance}
    {template : ProcessTemplate} {nid : String} {rest : List String} {uid : String}
    (htf : template.steps.find? (fun st => st.stepId == nid) = none) :
    createNextSteps s pi template (nid :: rest) uid =
      createNextSteps s pi template rest uid := by
  conv_lhs => unfold createNextSteps
  rw [htf]

theorem createNextSteps_state (template : ProcessTemplate) (uid : String)
    (ids : List String) :
    ∀ s pi,
    ((createNextSteps s pi template ids uid).2).instances = s.instances ∧
    ((createNextSteps s pi template ids uid).2).templates = s.templates ∧
    ((createNextSteps s pi template ids uid).2).now = s.now ∧
    ((createNextSteps s pi template ids uid).2).notificationSinkFails =
      s.notificationSinkFails ∧
    ((createNextSteps s pi template ids uid).2).users = s.users := by
  induction ids with
  | nil => intro s pi; exact ⟨rfl, rfl, rfl, rfl, rfl⟩
  | cons nid rest ih =>
    intro s pi
    cases hf : template.steps.find? (fun st => st.stepId == nid) with
    | none =>
      rw [createNextSteps_cons_notfound hf]
      exact ih s pi
    | some nts =>
      rw [createNextSteps_cons_found hf]
      obtain ⟨h1, h2, h3, h4, h5, h6, h7⟩ := createStepInstance_state s pi nts uid
      obtain ⟨g1, g2, g3, g4, g5⟩ := ih (createStepInstance s pi nts uid).2
        { pi with currentSteps := pi.currentSteps ++ [nid] }
      exact ⟨g1.trans h1, g2.trans h2, g3.trans h3, g4.trans h4, g5.trans h5⟩

theorem createNextSteps_fst (template : ProcessTemplate) (uid : String)
    (ids : List String) :
    ∀ s pi, ∃ cs, (createNextSteps s pi template ids uid).1 =
      { pi with currentSteps := cs } := by
  induction ids with
  | nil => intro s pi; exact ⟨pi.currentSteps, rfl⟩
  | cons nid rest ih =>
    intro s pi
    cases hf : template.steps.find? (fun st => st.stepId == nid) with
    | none =>
      rw [createNextSteps_cons_notfound hf]
      exact ih s pi
    | some nts =>
      rw [createNextSteps_cons_found hf]
      obtain ⟨cs, hcs⟩ := ih (createStepInstance s pi nts uid).2
        { pi with currentSteps := pi.currentSteps ++ [nid] }
      exact ⟨cs, hcs⟩

/-- `completeProcess` commits the completed instance and, with the sink
healthy, also delivers the completion notification and returns success. -/
theorem completeProcess_spec {s : EngineState} {pi b : ProcessInstance} (uid : String)
    (hb : s.notificationSinkFails = false)
    (hentry : findInstance s pi.id = some b) :
    ∃ s', completeProcess pi uid s = (.ok (), s') ∧
      findInstance s' pi.id = some
        { pi with
          status := "completed", endDate := some s.now,
          completionPercentage := 100, currentSteps := ([] : List String) } ∧
      s'.stepInstances = s.stepInstances ∧ s'.now = s.now := by
  unfold completeProcess
  rw [notifyUser_ok _ _ (show (appendHistory (saveInstance s _) _).notificationSinkFails
    = false from hb)]
  refine ⟨_, rfl, ?_, rfl, rfl⟩
  unfold findInstance saveInstance
  exact entryBy_replaceBy_self hentry

/-- The committed-before-throw behaviour of `completeProcess` when the
notification sink fails: the error propagates but the instance is already
saved as completed. -/
theorem completeProcess_fail {s : EngineState} {pi b : ProcessInstance} (uid : String)
    (hb : s.notificationSinkFails = true)
    (hentry : findInstance s pi.id = some b) :
    (completeProcess pi uid s).1 = .error .sinkError ∧
      findInstance (completeProcess pi uid s).2 pi.id = some
        { pi with
          status := "completed", endDate := some s.now,
          completionPercentage := 100, currentSteps := ([] : List String) } := by
  unfold completeProcess
  rw [notifyUser_fail _ (show (appendHistory (saveInstance s _) _).notificationSinkFails
    = true from hb)]
  refine ⟨rfl, ?_⟩
  unfold findInstance saveInstance
  exact entryBy_replaceBy_self hentry

theorem processStepCompletion_eq {s : EngineState} {pi : ProcessInstance}
    {si : StepInstance} {uid : String} {template : ProcessTemplate}
    {templateStep : StepDefinition}
    (hT : findTemplate s pi.processTemplateId = some template)
    (hTS : template.steps.find? (fun st => st.stepId == si.stepId) = some templateStep) :
    processStepCompletion pi si uid s =
      (if (determineNextSteps templateStep si (lookupVar si.vars "decision")).isEmpty ||
          (determineNextSteps templateStep si (lookupVar si.vars "decision")).all
            (fun i => template.endSteps.contains i) then
        completeProcess
          (createNextSteps s
            { pi with currentSteps :=
                pi.currentSteps.filter (fun stepId => stepId != si.stepId) }
            template (determineNextSteps templateStep si (lookupVar si.vars "decision"))
            uid).1
          uid
          (createNextSteps s
            { pi with currentSteps :=
                pi.currentSteps.filter (fun stepId => stepId != si.stepId) }
            template (determineNextSteps templateStep si (lookupVar si.vars "decision"))
            uid).2
      else
        (.ok (), saveInstance
          (updateCompletionPercentage
            (createNextSteps s
              { pi with currentSteps :=
                  pi.currentSteps.filter (fun stepId => stepId != si.stepId) }
              template (determineNextSteps templateStep si (lookupVar si.vars "decision"))
              uid).2
            (createNextSteps s
              { pi with currentSteps :=
                  pi.currentSteps.filter (fun stepId => stepId != si.stepId) }
              template (determineNextSteps templateStep si (lookupVar si.vars "decision"))
              uid).1).2
          (updateCompletionPercentage
            (createNextSteps s
              { pi with currentSteps :=
                  pi.currentSteps.filter (fun stepId => stepId != si.stepId) }
              template (determineNextSteps templateStep si (lookupVar si.vars "decision"))
              uid).2
            (createNextSteps s
              { pi with currentSteps :=
                  pi.currentSteps.filter (fun stepId => stepId != si.stepId) }
              template (determineNextSteps templateStep si (lookupVar si.vars "decision"))
              uid).1).1)) := by
  conv_lhs => unfold processStepCompletion
  simp only [hT]
  simp only [hTS]

/-- The counting helpers only read step instances, so process-instance saves
leave them unchanged. -/
theorem countCompleted_saveInstance (s : EngineState) (p : ProcessInstance) (i : Nat) :
    countCompleted (saveInstance s p) i = countCompleted s i := rfl

theorem countSteps_saveInstance (s : EngineState) (p : ProcessInstance) (i : Nat) :
    countSteps (saveInstance s p) i = countSteps s i := rfl

/-- Full specification of `processStepCompletion`: it always succeeds (given
the template and template step resolve and the sink is healthy), completing
the process when the routed next-step set is empty or inside `endSteps`, and
otherwise recomputing the completion percentage from the step counts. -/
theorem processStepCompletion_spec {s : EngineState} {pi : ProcessInstance}
    {si : StepInstance} {template : ProcessTemplate} {templateStep : StepDefinition}
    (uid : String)
    (hT : findTemplate s pi.processTemplateId = some template)
    (hTS : template.steps.find? (fun st => st.stepId == si.stepId) = some templateStep)
    (hb : s.notificationSinkFails = false)
    (hmem : pi ∈ s.instances)
    (hnd : (s.instances.map (fun p => p.id)).Nodup) :
    ∃ s', processStepCompletion pi si uid s = (.ok (), s') ∧ s'.now = s.now ∧
      (((determineNextSteps templateStep si (lookupVar si.vars "decision")).isEmpty ||
        (determineNextSteps templateStep si (lookupVar si.vars "decision")).all
          (fun i => template.endSteps.contains i)) = true →
        findInstance s' pi.id = some
          { pi with
            status := "completed", endDate := some s.now,
            completionPercentage := 100, currentSteps := ([] : List String) }) ∧
      (((determineNextSteps templateStep si (lookupVar si.vars "decision")).isEmpty ||
        (determineNextSteps templateStep si (lookupVar si.vars "decision")).all
          (fun i => template.endSteps.contains i)) = false →
        ∃ cs, findInstance s' pi.id = some
          { pi with
            currentSteps := cs,
            completionPercentage :=
              roundPct (countCompleted s' pi.id) (countSteps s' pi.id) }) := by
  rw [processStepCompletion_eq hT hTS]
  obtain ⟨cs2, hpi2⟩ := createNextSteps_fst template uid
    (determineNextSteps templateStep si (lookupVar si.vars "decision")) s
    { pi with currentSteps := pi.currentSteps.filter (fun stepId => stepId != si.stepId) }
  obtain ⟨e1, e2, e3, e4, e5⟩ := createNextSteps_state template uid
    (determineNextSteps templateStep si (lookupVar si.vars "decision")) s
    { pi with currentSteps := pi.currentSteps.filter (fun stepId => stepId != si.stepId) }
  have hid : ((createNextSteps s
      { pi with currentSteps := pi.currentSteps.filter (fun stepId => stepId != si.stepId) }
      template (determineNextSteps templateStep si (lookupVar si.vars "decision"))
      uid).1).id = pi.id := by
    rw [hpi2]
  have hbC : ((createNextSteps s
      { pi with currentSteps := pi.currentSteps.filter (fun stepId => stepId != si.stepId) }
      template (determineNextSteps templateStep si (lookupVar si.vars "decision"))
      uid).2).notificationSinkFails = false := by
    rw [e4]
    exact hb
  have hentryC : findInstance ((createNextSteps s
      { pi with currentSteps := pi.currentSteps.filter (fun stepId => stepId != si.stepId) }
      template (determineNextSteps templateStep si (lookupVar si.vars "decision"))
      uid).2) pi.id = some pi := by
    unfold findInstance
    rw [e1]
    exact entryBy_of_mem_nodup hnd hmem
  by_cases hcond : ((determineNextSteps templateStep si (lookupVar si.vars "decision")).isEmpty ||
      (determineNextSteps templateStep si (lookupVar si.vars "decision")).all
        (fun i => template.endSteps.contains i)) = true
  · rw [if_pos hcond]
    obtain ⟨s', heq, hfind, hsteps', hnow'⟩ := completeProcess_spec uid hbC
      (show findInstance _ ((createNextSteps s
        { pi with currentSteps := pi.currentSteps.filter (fun stepId => stepId != si.stepId) }
        template (determineNextSteps templateStep si (lookupVar si.vars "decision"))
        uid).1).id = some pi by rw [hid]; exact hentryC)
    refine ⟨s', heq, by rw [hnow', e3], fun _ => ?_, fun hf => absurd hcond (by rw [hf]; simp)⟩
    rw [hid] at hfind
    rw [hpi2] at hfind
    rw [e3] at hfind
    exact hfind
  · have hcond' : ((determineNextSteps templateStep si (lookupVar si.vars "decision")).isEmpty ||
        (determineNextSteps templateStep si (lookupVar si.vars "decision")).all
          (fun i => template.endSteps.contains i)) = false := Bool.eq_false_iff.2 hcond
    rw [if_neg (by rw [hcond']; simp)]
    refine ⟨_, rfl, e3, fun hf => absurd hf hcond, fun _ => ?_⟩
    refine ⟨cs2, ?_⟩
    have h4 := findInstance_save_update
      ((createNextSteps s
        { pi with currentSteps := pi.currentSteps.filter (fun stepId => stepId != si.stepId) }
        template (determineNextSteps templateStep si (lookupVar si.vars "decision"))
        uid).2)
      ((createNextSteps s
        { pi with currentSteps := pi.currentSteps.filter (fun stepId => stepId != si.stepId) }
        template (determineNextSteps templateStep si (lookupVar si.vars "decision"))
        uid).1)
      pi (by rw [hid]; exact hentryC)
    rw [hid] at h4
    rw [h4]
    rw [hpi2]
    rfl

/-! ## Claims C2 and C9 -/

/-- **C2.** For every completed step (with the template and its step
resolvable, the notification sink healthy and a well-keyed instance
collection), `processStepCompletion` completes the process — status
`"completed"`, `endDate` set, percentage 100, empty `currentSteps` — exactly
when the routed next-step set is empty or lies inside `endSteps`, and
otherwise recomputes `completionPercentage = round(100 * completed / total)`
from the step-instance counts. -/
theorem claim2_step_completion_branches
    (s : EngineState) (pi : ProcessInstance) (si : StepInstance)
    (template : ProcessTemplate) (templateStep : StepDefinition) (uid : String)
    (hT : findTemplate s pi.processTemplateId = some template)
    (hTS : template.steps.find? (fun st => st.stepId == si.stepId) = some templateStep)
    (hb : s.notificationSinkFails = false)
    (hmem : pi ∈ s.instances)
    (hnd : (s.instances.map (fun p => p.id)).Nodup) :
    ∃ s', processStepCompletion pi si uid s = (.ok (), s') ∧ s'.now = s.now ∧
      (((determineNextSteps templateStep si (lookupVar si.vars "decision")).isEmpty ||
        (determineNextSteps templateStep si (lookupVar si.vars "decision")).all
          (fun i => template.endSteps.contains i)) = true →
        findInstance s' pi.id = some
          { pi with
            status := "completed", endDate := some s.now,
            completionPercentage := 100, currentSteps := ([] : List String) }) ∧
      (((determineNextSteps templateStep si (lookupVar si.vars "decision")).isEmpty ||
        (determineNextSteps templateStep si (lookupVar si.vars "decision")).all
          (fun i => template.endSteps.contains i)) = false →
        ∃ cs, findInstance s' pi.id = some
          { pi with
            currentSteps := cs,
            completionPercentage :=
              roundPct (countCompleted s' pi.id) (countSteps s' pi.id) }) :=
  processStepCompletion_spec uid hT hTS hb hmem hnd

/-- Witness for C2: completing the last non-end step of the concrete 2-step
template drives the process to `completed` with 100 % and empty
`currentSteps`. -/
theorem claim2_step_completion_branches_witness :
    ∃ s', processStepCompletion exInstanceActive exStepInProgress "alice" exStateActive
        = (.ok (), s') ∧
      findInstance s' exInstanceActive.id = some
        { exInstanceActive with
          status := "completed", endDate := some (100 : Int),
          completionPercentage := 100, currentSteps := ([] : List String) } := by
  obtain ⟨s', h1, h2, h3, h4⟩ := claim2_step_completion_branches exStateActive
    exInstanceActive exStepInProgress exTemplate2 exStartStep "alice" rfl rfl rfl
    (by decide) (by decide)
  exact ⟨s', h1, h3 (by decide)⟩

/-- **C9 (amended).** The notification failure policy is not uniform: the
task-assignment notification of step creation is swallowed (`sendTaskNotification`
is the identity under a failing sink, and `createStepInstance` commits the new
step and its history row regardless), but `completeProcess` rethrows — under a
failing sink it returns the sink error even though the completed instance was
already saved (committed before throw). -/
theorem claim9_side_effect_failures :
    (∀ (s : EngineState) (si : StepInstance),
      s.notificationSinkFails = true → sendTaskNotification s si = s) ∧
    (∀ (s : EngineState) (pi : ProcessInstance) (ts : StepDefinition) (uid : String),
      ((createStepInstance s pi ts uid).2).stepInstances
          = s.stepInstances ++ [buildStepInstance s pi ts uid] ∧
        ((createStepInstance s pi ts uid).2).history
          = s.history ++ [stepCreatedDoc pi (buildStepInstance s pi ts uid) uid] ∧
        (createStepInstance s pi ts uid).1 = buildStepInstance s pi ts uid) ∧
    (∀ (s : EngineState) (pi b : ProcessInstance) (uid : String),
      s.notificationSinkFails = true → findInstance s pi.id = some b →
      (completeProcess pi uid s).1 = .error .sinkError ∧
        findInstance (completeProcess pi uid s).2 pi.id = some
          { pi with
            status := "completed", endDate := some s.now,
            completionPercentage := 100, currentSteps := ([] : List String) }) := by
  refine ⟨fun s si h => sendTaskNotification_fail si h,
    fun s pi ts uid => ⟨(createStepInstance_state s pi ts uid).2.2.2.2.2.1,
      (createStepInstance_state s pi ts uid).2.2.2.2.2.2,
      createStepInstance_fst s pi ts uid⟩,
    fun s pi b uid hb hentry => completeProcess_fail uid hb hentry⟩

/-- Counterexample for C9 as stated: with the notification sink failing,
`completeProcess` — a state-transitioning engine operation — does **not**
swallow the side-effect failure: it returns the sink error to the caller, even
though the primary transition (the completed instance) is already committed. -/
theorem claim9_side_effect_failures_counterexample :
    (completeProcess exInstanceActive "alice" exStateSinkFail).1 = .error .sinkError ∧
    findInstance (completeProcess exInstanceActive "alice" exStateSinkFail).2 1 =
      some { exInstanceActive with
             status := "completed", endDate := some (100 : Int),
             completionPercentage := 100, currentSteps := ([] : List String) } :=
  ⟨rfl, rfl⟩

/-- Witness for C9 (amended) at the concrete failing-sink state. -/
theorem claim9_side_effect_failures_witness :
    sendTaskNotification exStateSinkFail exStepInProgress = exStateSinkFail ∧
    (completeProcess exInstanceActive "alice" exStateSinkFail).1 = .error .sinkError :=
  ⟨claim9_side_effect_failures.1 exStateSinkFail exStepInProgress rfl,
    (claim9_side_effect_failures.2.2 exStateSinkFail exInstanceActive exInstanceActive
      "alice" rfl rfl).1⟩

/-! ## Claim C3: `startProcess` -/

/-- **C3 (amended).** `startProcess` fails with `NotFound` (404) when the
instance is missing and with `InvalidState` (400) when its status is not
`draft`, leaving the state unchanged; a missing template is dereferenced and
raises a `TypeError`, not a `NotFound` error; on a draft instance with a
resolvable template and start step it succeeds: status `active`, `startDate`
set, exactly one new step instance for the start step — already `"completed"`
when that step is a `service_task`/`autoComplete` step, `"pending"` otherwise —
`currentSteps` exactly the start step id, and `step_created` plus
`process_started` history rows appended. -/
theorem claim3_start_process :
    (∀ (s : EngineState) (i : Nat) (uid : String),
      findInstance s i = none →
      startProcess i uid s =
        (.error (.appError 404 "Process instance not found"), s)) ∧
    (∀ (s : EngineState) (i : Nat) (uid : String) (inst : ProcessInstance),
      findInstance s i = some inst → inst.status ≠ "draft" →
      startProcess i uid s =
        (.error (.appError 400 "Process can only be started from draft status"), s)) ∧
    (∀ (s : EngineState) (i : Nat) (uid : String) (inst : ProcessInstance),
      findInstance s i = some inst → inst.status = "draft" →
      findTemplate s inst.processTemplateId = none →
      startProcess i uid s =
        (.error (.typeError "Cannot read properties of null (reading steps)"), s)) ∧
    (∀ (s : EngineState) (i : Nat) (uid : String) (inst : ProcessInstance)
        (template : ProcessTemplate) (startDef : StepDefinition),
      findInstance s i = some inst → inst.status = "draft" →
      findTemplate s inst.processTemplateId = some template →
      template.steps.find? (fun st => st.stepId == template.startStep) = some startDef →
      ∃ s3, startProcess i uid s =
          (.ok { inst with
                 status := "active", startDate := some s.now,
                 currentSteps := [startDef.stepId] }, s3) ∧
        s3.stepInstances = s.stepInstances ++
          [buildStepInstance s
            { inst with status := "active", startDate := some s.now } startDef uid] ∧
        (buildStepInstance s
            { inst with status := "active", startDate := some s.now } startDef uid).stepId
          = startDef.stepId ∧
        (buildStepInstance s
            { inst with status := "active", startDate := some s.now } startDef uid).status
          = (if (startDef.type == "service_task" || startDef.autoComplete) = true
             then "completed" else "pending") ∧
        s3.history = s.history ++
          [stepCreatedDoc { inst with status := "active", startDate := some s.now }
            (buildStepInstance s
              { inst with status := "active", startDate := some s.now } startDef uid)
            uid] ++
          [{ processInstanceId := inst.id, stepInstanceId := none,
             action := "process_started", performedBy := some uid,
             fromStatus := some "draft", toStatus := some "active" }] ∧
        findInstance s3 inst.id = some
          { inst with
            status := "active", startDate := some s.now,
            currentSteps := [startDef.stepId] }) := by
  refine ⟨?_, ?_, ?_, ?_⟩
  · intro s i uid h
    unfold startProcess
    rw [h]
  · intro s i uid inst h hst
    unfold startProcess
    simp only [h]
    rw [if_pos (bne_iff_ne.mpr hst)]
  · intro s i uid inst h hst hT
    unfold startProcess
    simp only [h]
    rw [if_neg (show ¬((inst.status != "draft") = true) by simp [hst])]
    simp only [hT]
  · intro s i uid inst template startDef h hst hT hSS
    unfold startProcess
    simp only [h]
    rw [if_neg (show ¬((inst.status != "draft") = true) by simp [hst])]
    simp only [hT, hSS]
    obtain ⟨e1, e2, e3, e4, e5, e6, e7⟩ := createStepInstance_state s
      { inst with status := "active", startDate := some s.now } startDef uid
    obtain ⟨b1, b2, b3, b4⟩ := buildStepInstance_fields s
      { inst with status := "active", startDate := some s.now } startDef uid
    obtain ⟨hmem0, hid0⟩ := entryBy_some h
    refine ⟨_, rfl, e6, b3, b4, ?_, ?_⟩
    · exact congrArg (fun l => l ++
        [{ processInstanceId := inst.id, stepInstanceId := none,
           action := "process_started", performedBy := some uid,
           fromStatus := some "draft", toStatus := some "active" }]) e7
    · have hentry : entryBy (fun p : ProcessInstance => p.id) s.instances inst.id
          = some inst := by
        rw [hid0]
        exact h
      have hentry1 : entryBy (fun p : ProcessInstance => p.id)
          ((createStepInstance s
            { inst with status := "active", startDate := some s.now } startDef uid).2).instances
          inst.id = some inst := by
        rw [e1]
        exact hentry
      exact entryBy_replaceBy_self hentry1

/-- Counterexample for C3 as stated: a draft instance whose template id
resolves to nothing makes `startProcess` raise a `TypeError` (a null
dereference of `template.steps`), not the claimed `NotFound`; and starting a
draft instance whose start step is a `service_task` creates its single step
instance already `"completed"`, not live. -/
theorem claim3_start_process_counterexample :
    startProcess 1 "alice" exStateDraftNoTemplate =
      (.error (.typeError "Cannot read properties of null (reading steps)"),
        exStateDraftNoTemplate) ∧
    (startProcess 2 "alice" exStateDraftSvc).2.stepInstances.map
        (fun t => (t.stepId, t.status)) = [("s1", "completed")] :=
  ⟨rfl, rfl⟩

/-- Witness for C3 (amended) at the concrete fixtures: all three failure modes
and the successful start of the draft 2-step instance. -/
theorem claim3_start_process_witness :
    startProcess 99 "alice" exStateDraft =
      (.error (.appError 404 "Process instance not found"), exStateDraft) ∧
    startProcess 1 "bob" exStateActive =
      (.error (.appError 400 "Process can only be started from draft status"),
        exStateActive) ∧
    startProcess 1 "alice" exStateDraftNoTemplate =
      (.error (.typeError "Cannot read properties of null (reading steps)"),
        exStateDraftNoTemplate) ∧
    ∃ s3, startProcess 1 "alice" exStateDraft =
        (.ok { exInstanceActive with
               status := "active", startDate := some (100 : Int),
               currentSteps := ["s1"] }, s3) ∧
      findInstance s3 1 = some
        { exInstanceActive with
          status := "active", startDate := some (100 : Int),
          currentSteps := ["s1"] } := by
  refine ⟨claim3_start_process.1 exStateDraft 99 "alice" rfl,
    claim3_start_process.2.1 exStateActive 1 "bob" exInstanceActive rfl (by decide),
    claim3_start_process.2.2.1 exStateDraftNoTemplate 1 "alice"
      { exInstanceActive with status := "draft", currentSteps := [], startDate := none }
      rfl rfl rfl, ?_⟩
  obtain ⟨s3, h1, h2, h3, h4, h5, h6⟩ := claim3_start_process.2.2.2 exStateDraft 1 "alice"
    { exInstanceActive with status := "draft", currentSteps := [], startDate := none }
    exTemplate2 exStartStep rfl rfl rfl rfl
  exact ⟨s3, h1, h6⟩

/-! ## Claim C4: `completeStep` authorization -/

theorem decisionVars_stepId (si1 : StepInstance) (dec : Option String) :
    (decisionVars si1 dec).stepId = si1.stepId := by
  unfold decisionVars
  split_ifs <;> rfl

theorem decisionVars_status (si1 : StepInstance) (dec : Option String) :
    (decisionVars si1 dec).status = si1.status := by
  unfold decisionVars
  split_ifs <;> rfl

theorem decisionVars_endDate (si1 : StepInstance) (dec : Option String) :
    (decisionVars si1 dec).endDate = si1.endDate := by
  unfold decisionVars
  split_ifs <;> rfl

theorem decisionVars_completedBy (si1 : StepInstance) (dec : Option String) :
    (decisionVars si1 dec).completedBy = si1.completedBy := by
  unfold decisionVars
  split_ifs <;> rfl

theorem decisionVars_formData (si1 : StepInstance) (dec : Option String) :
    (decisionVars si1 dec).formData = si1.formData := by
  unfold decisionVars
  split_ifs <;> rfl

/-- The authorized path of `completeStep`: an in-progress step that is
unassigned or assigned to the caller is committed with the completion fields
and the whole call returns the saved step. -/
theorem completeStep_success {s : EngineState} {sid : Nat} {si : StepInstance}
    {pi : ProcessInstance} {template : ProcessTemplate} {templateStep : StepDefinition}
    (y : String) (fd : List (String × String)) (dec : Option String)
    (hS : findStepInstance s sid = some si)
    (hI : findInstance s si.processInstanceId = some pi)
    (hT : findTemplate s pi.processTemplateId = some template)
    (hTS : template.steps.find? (fun st => st.stepId == si.stepId) = some templateStep)
    (hst : si.status = "in_progress")
    (has : si.assignedTo = none ∨ si.assignedTo = some y)
    (hb : s.notificationSinkFails = false)
    (hmem : pi ∈ s.instances)
    (hnd : (s.instances.map (fun p => p.id)).Nodup) :
    ∃ st s3, completeStep sid y fd dec s = (.ok st, s3) ∧
      st.status = "completed" ∧ st.endDate = some s.now ∧
      st.completedBy = some y ∧ st.formData = mergeMap si.formData fd := by
  have hcc : canComplete si y = true := by
    unfold canComplete
    rw [if_neg (show ¬((si.status != "in_progress") = true) by simp [hst])]
    rcases has with h2 | h2 <;> rw [h2]
    simp
  unfold completeStep
  simp only [hS, hI, hT]
  rw [if_neg (show ¬((!canComplete si y) = true) by simp [hcc])]
  simp only [hTS]
  have hT2 : findTemplate
      (appendHistory (saveStepInstance s (decisionVars
        { si with status := "completed", endDate := some s.now,
                  completedBy := some y, formData := mergeMap si.formData fd } dec))
        { processInstanceId := pi.id,
          stepInstanceId := some (decisionVars
            { si with status := "completed", endDate := some s.now,
                      completedBy := some y, formData := mergeMap si.formData fd } dec).id,
          action := "step_completed", performedBy := some y,
          fromStatus := some "in_progress", toStatus := some "completed" })
      pi.processTemplateId = some template := hT
  have hTS2 : template.steps.find? (fun st => st.stepId == (decisionVars
      { si with status := "completed", endDate := some s.now,
                completedBy := some y, formData := mergeMap si.formData fd } dec).stepId)
      = some templateStep := by
    rw [decisionVars_stepId]
    exact hTS
  have hb2 : (appendHistory (saveStepInstance s (decisionVars
      { si with status := "completed", endDate := some s.now,
                completedBy := some y, formData := mergeMap si.formData fd } dec))
      { processInstanceId := pi.id,
        stepInstanceId := some (decisionVars
          { si with status := "completed", endDate := some s.now,
                    completedBy := some y, formData := mergeMap si.formData fd } dec).id,
        action := "step_completed", performedBy := some y,
        fromStatus := some "in_progress", toStatus := some "completed" }).notificationSinkFails
      = false := hb
  have hmem2 : pi ∈ (appendHistory (saveStepInstance s (decisionVars
      { si with status := "completed", endDate := some s.now,
                completedBy := some y, formData := mergeMap si.formData fd } dec))
      { processInstanceId := pi.id,
        stepInstanceId := some (decisionVars
          { si with status := "completed", endDate := some s.now,
                    completedBy := some y, formData := mergeMap si.formData fd } dec).id,
        action := "step_completed", performedBy := some y,
        fromStatus := some "in_progress", toStatus := some "completed" }).instances := hmem
  have hnd2 : ((appendHistory (saveStepInstance s (decisionVars
      { si with status := "completed", endDate := some s.now,
                completedBy := some y, formData := mergeMap si.formData fd } dec))
      { processInstanceId := pi.id,
        stepInstanceId := some (decisionVars
          { si with status := "completed", endDate := some s.now,
                    completedBy := some y, formData := mergeMap si.formData fd } dec).id,
        action := "step_completed", performedBy := some y,
        fromStatus := some "in_progress", toStatus := some "completed" }).instances.map
      (fun p => p.id)).Nodup := hnd
  obtain ⟨s3, heq, hnow, h3, h4⟩ := processStepCompletion_spec y hT2 hTS2 hb2 hmem2 hnd2
  rw [heq]
  refine ⟨_, s3, rfl, ?_, ?_, ?_, ?_⟩
  · rw [decisionVars_status]
  · rw [decisionVars_endDate]
  · rw [decisionVars_completedBy]
  · rw [decisionVars_formData]

/-- **C4.** `completeStep` on a step assigned to user `x`, invoked by a
different user `y`, always fails with the 403 `Forbidden` error and leaves the
state untouched; invoked by the assignee (or on an unassigned step) while the
step is `in_progress`, it succeeds and the returned saved step carries
`status = "completed"`, `endDate = now`, `completedBy` the caller, and the
merged `formData`. -/
theorem claim4_complete_step_authorization :
    (∀ (s : EngineState) (sid : Nat) (si : StepInstance) (pi : ProcessInstance)
        (template : ProcessTemplate) (x y : String) (fd : List (String × String))
        (dec : Option String),
      findStepInstance s sid = some si →
      findInstance s si.processInstanceId = some pi →
      findTemplate s pi.processTemplateId = some template →
      si.assignedTo = some x → x ≠ y →
      completeStep sid y fd dec s =
        (.error (.appError 403 "You are not authorized to complete this step"), s)) ∧
    (∀ (s : EngineState) (sid : Nat) (si : StepInstance) (pi : ProcessInstance)
        (template : ProcessTemplate) (templateStep : StepDefinition) (y : String)
        (fd : List (String × String)) (dec : Option String),
      findStepInstance s sid = some si →
      findInstance s si.processInstanceId = some pi →
      findTemplate s pi.processTemplateId = some template →
      template.steps.find? (fun st => st.stepId == si.stepId) = some templateStep →
      si.status = "in_progress" →
      (si.assignedTo = none ∨ si.assignedTo = some y) →
      s.notificationSinkFails = false →
      pi ∈ s.instances →
      (s.instances.map (fun p => p.id)).Nodup →
      ∃ st s3, completeStep sid y fd dec s = (.ok st, s3) ∧
        st.status = "completed" ∧ st.endDate = some s.now ∧
        st.completedBy = some y ∧ st.formData = mergeMap si.formData fd) := by
  constructor
  · intro s sid si pi template x y fd dec hS hI hT has hxy
    have hcc : canComplete si y = false := by
      unfold canComplete
      by_cases h1 : (si.status != "in_progress") = true
      · rw [if_pos h1]
      · rw [if_neg h1, has]
        exact beq_eq_false_iff_ne.mpr hxy
    unfold completeStep
    simp only [hS, hI, hT]
    rw [if_pos (show (!canComplete si y) = true by simp [hcc])]
  · intro s sid si pi template templateStep y fd dec hS hI hT hTS hst has hb hmem hnd
    exact completeStep_success y fd dec hS hI hT hTS hst has hb hmem hnd

/-- Witness for C4: at the concrete running state, bob is refused with the 403
error on alice's step, while alice completes it with the committed completion
fields. -/
theorem claim4_complete_step_authorization_witness :
    completeStep 10 "bob" [] none exStateActive =
      (.error (.appError 403 "You are not authorized to complete this step"),
        exStateActive) ∧
    ∃ st s3, completeStep 10 "alice" [("k", "v")] none exStateActive = (.ok st, s3) ∧
      st.status = "completed" ∧ st.endDate = some (100 : Int) ∧
      st.completedBy = some "alice" ∧
      st.formData = mergeMap exStepInProgress.formData [("k", "v")] := by
  refine ⟨claim4_complete_step_authorization.1 exStateActive 10 exStepInProgress
      exInstanceActive exTemplate2 "alice" "bob" [] none rfl rfl rfl rfl (by decide), ?_⟩
  exact claim4_complete_step_authorization.2 exStateActive 10 exStepInProgress
    exInstanceActive exTemplate2 exStartStep "alice" [("k", "v")] none rfl rfl rfl rfl
    rfl (Or.inr rfl) rfl (by decide) (by decide)

end Myappstatus
